import Mathlib

/-!
# Verification of the streaming chat engine (`useChat` hook)

A shallow embedding of the streaming conversation engine of the
USLaw-expert-RAG frontend: the protocol decoder, frame interpreter,
stream session controller, update throttler and metrics aggregator
implemented in `src/frontend/src/hooks/useChat.ts` (the hook named
`useChat`), together with `getFriendlyErrorMessage` from
`src/frontend/src/lib/utils.ts`.

Conventions of the embedding:
* JS strings are Lean `String`s / `List Char`; the UTF-16 details are
  irrelevant for the inputs treated here (no lone surrogates).
* `Date.now()` timestamps are `Nat` parameters threaded into each
  synchronous step (all code between two `await` suspension points runs
  with an essentially constant clock).
* JS numbers appearing in the protocol are JSON decimal literals and are
  represented exactly as scaled integers `m / 10^e`.
* React `useState` cells and `useRef` cells are fields of an explicit
  `ChatState` record; a `setX` call is a functional update.  Per-stream
  local variables (`buffer`, `tokenBuffer`, `lastUpdateTime`,
  `boundSessionId`, `assistantId`) form a `StreamLocal` record.
* A thrown JS exception is an `Option String` error component carrying
  `err.message`.
-/

namespace Spec2Proof

/-! ## Generic character/string utilities mirroring the JS primitives -/

/-- JS whitespace (the `String.prototype.trim` / regex `\s` class) by
code point: space, tab, LF, VT, FF, CR, NBSP, BOM, and the Unicode
space and line separators recognised by JavaScript. -/
def jsWhitespace (c : Char) : Bool :=
  let n := c.toNat
  n = 0x20 || n = 0x9 || n = 0xa || n = 0xb || n = 0xc || n = 0xd ||
  n = 0xa0 || n = 0xfeff || n = 0x1680 ||
  (0x2000 ≤ n && n ≤ 0x200a) ||
  n = 0x2028 || n = 0x2029 || n = 0x202f || n = 0x205f || n = 0x3000

/-- JS regex line terminators (the characters `.` does not match). -/
def jsLineTerm (c : Char) : Bool :=
  let n := c.toNat
  n = 0xa || n = 0xd || n = 0x2028 || n = 0x2029

/-- `String.prototype.trim` on a character list: strip JS whitespace
from both ends. -/
def trimChars (s : List Char) : List Char :=
  ((s.dropWhile jsWhitespace).reverse.dropWhile jsWhitespace).reverse

/-- Whether `pat` occurs as a contiguous substring of `s`
(JS `String.prototype.includes`). -/
def containsSub (s pat : List Char) : Bool :=
  match s with
  | [] => pat.isPrefixOf ([] : List Char)
  | _ :: t => pat.isPrefixOf s || containsSub t pat

/-- Index of the first occurrence of `pat` in `s`, if any
(JS `String.prototype.indexOf`, with `none` for `-1`). -/
def indexOfSub (s pat : List Char) : Option Nat :=
  match s with
  | [] => if pat.isPrefixOf ([] : List Char) then some 0 else none
  | _ :: t =>
    if pat.isPrefixOf s then some 0
    else (indexOfSub t pat).map (· + 1)

/-- Index of the first occurrence of character `c` in `s`
(JS `indexOf` on a one-character needle). -/
def indexOfChar (s : List Char) (c : Char) : Option Nat :=
  match s with
  | [] => none
  | a :: t => if a = c then some 0 else (indexOfChar t c).map (· + 1)

/-- JS `String.prototype.split(sep)` for a non-empty separator string:
left-to-right scan, non-overlapping occurrences. Implemented with
explicit fuel (the length of `s` plus one suffices: each step consumes
at least the separator). -/
def splitOnSubF (fuel : Nat) (s pat : List Char) : List (List Char) :=
  match fuel with
  | 0 => [s]
  | fuel + 1 =>
    match indexOfSub s pat with
    | none => [s]
    | some i => s.take i :: splitOnSubF fuel (s.drop (i + pat.length)) pat

/-- JS `split` wrapper choosing sufficient fuel. -/
def splitOnSub (s pat : List Char) : List (List Char) :=
  splitOnSubF (s.length + 1) s pat

/-- Split a character sequence at `'\n'` into the list of complete lines
and the trailing partial line; `buffer.split('\n')` in the source
returns `fst ++ [snd]` of this, and `lines.pop()` recovers `snd`. -/
def splitNlP : List Char → List (List Char) × List Char
  | [] => ([], [])
  | c :: r =>
    let (ls, p) := splitNlP r
    if c = '\n' then ([] :: ls, p)
    else match ls with
      | [] => ([], c :: p)
      | l :: ls' => ((c :: l) :: ls', p)

/-! ## JSON values

JSON numbers are decimal literals; they are represented exactly as a
scaled integer `m / 10^e` (mantissa and decimal exponent), avoiding any
floating-point modelling: every number occurring in the protocol
(`retrieval_time`, `score`, `rank`) is a short decimal literal that a
JS double represents exactly enough for the integer-valued derived
quantities (`Math.round(x*1000)`, `Math.round(score*100)`) computed on
it. -/

inductive Json where
  | null
  | bool (b : Bool)
  | num (m : Int) (e : Nat)
  | str (s : String)
  | arr (elems : List Json)
  | obj (fields : List (String × Json))

/-- JSON-source whitespace accepted by `JSON.parse`. -/
def skipWsJ (s : List Char) : List Char :=
  s.dropWhile (fun c => c = ' ' || c = '\t' || c = '\n' || c = '\r')

/-- Value of a hex digit, if `c` is one. -/
def hexVal (c : Char) : Option Nat :=
  let n := c.toNat
  if 48 ≤ n && n ≤ 57 then some (n - 48)
  else if 97 ≤ n && n ≤ 102 then some (n - 87)
  else if 65 ≤ n && n ≤ 70 then some (n - 55)
  else none

/-- Body of a JSON string literal after the opening quote: returns the
decoded characters and the remainder after the closing quote.  Raw
control characters are rejected, escape sequences are decoded;
`\uXXXX` denoting a surrogate half is outside the model (Lean `Char`
has no lone surrogates; such input never occurs here). -/
def parseStrBody : List Char → Option (List Char × List Char)
  | [] => none
  | '"' :: r => some ([], r)
  | '\\' :: r =>
    match r with
    | '"' :: t => (parseStrBody t).map (fun (cs, r') => ('"' :: cs, r'))
    | '\\' :: t => (parseStrBody t).map (fun (cs, r') => ('\\' :: cs, r'))
    | '/' :: t => (parseStrBody t).map (fun (cs, r') => ('/' :: cs, r'))
    | 'b' :: t => (parseStrBody t).map (fun (cs, r') => ('\u0008' :: cs, r'))
    | 'f' :: t => (parseStrBody t).map (fun (cs, r') => ('\u000c' :: cs, r'))
    | 'n' :: t => (parseStrBody t).map (fun (cs, r') => ('\n' :: cs, r'))
    | 'r' :: t => (parseStrBody t).map (fun (cs, r') => ('\r' :: cs, r'))
    | 't' :: t => (parseStrBody t).map (fun (cs, r') => ('\t' :: cs, r'))
    | 'u' :: a :: b :: c :: d :: t =>
      match hexVal a, hexVal b, hexVal c, hexVal d with
      | some ha, some hb, some hc, some hd =>
        (parseStrBody t).map (fun (cs, r') =>
          (Char.ofNat (((ha * 16 + hb) * 16 + hc) * 16 + hd) :: cs, r'))
      | _, _, _, _ => none
    | _ => none
  | c :: r =>
    if c.toNat < 0x20 then none
    else (parseStrBody r).map (fun (cs, r') => (c :: cs, r'))

/-- Digits to a natural number (most significant first). -/
def digitsToNat (ds : List Char) : Nat :=
  ds.foldl (fun a c => a * 10 + (c.toNat - 48)) 0

/-- Parse a JSON number literal (strict JSON grammar: optional minus,
no leading zeros, optional fraction, optional exponent). -/
def parseNum (s : List Char) : Option (Json × List Char) :=
  let (neg, s1) := match s with
    | '-' :: t => (true, t)
    | _ => (false, s)
  let ds := s1.takeWhile Char.isDigit
  if ds.isEmpty then none
  else if 1 < ds.length && ds.headD '0' = '0' then none
  else
    let s2 := s1.drop ds.length
    let fracStep : Option (List Char × List Char) :=
      match s2 with
      | '.' :: t =>
        let fs := t.takeWhile Char.isDigit
        if fs.isEmpty then none else some (fs, t.drop fs.length)
      | _ => some ([], s2)
    match fracStep with
    | none => none
    | some (fs, s3) =>
      let expStep : Option (Int × List Char) :=
        match s3 with
        | 'e' :: t | 'E' :: t =>
          let (esign, t1) := match t with
            | '+' :: t' => ((1 : Int), t')
            | '-' :: t' => ((-1 : Int), t')
            | _ => ((1 : Int), t)
          let es := t1.takeWhile Char.isDigit
          if es.isEmpty then none
          else some (esign * (digitsToNat es : Int), t1.drop es.length)
        | _ => some (0, s3)
      match expStep with
      | none => none
      | some (p, s4) =>
        let m0 : Int := (digitsToNat (ds ++ fs) : Int)
        let m1 : Int := if neg then -m0 else m0
        let k : Int := p - (fs.length : Int)
        if 0 ≤ k then some (.num (m1 * (10 : Int) ^ k.toNat) 0, s4)
        else some (.num m1 (-k).toNat, s4)

/-- Comma-separated JSON array items after the first item position
(given an element parser `pv`); consumes the closing `]`. -/
def parseItemsF (pv : List Char → Option (Json × List Char)) :
    Nat → List Char → Option (List Json × List Char)
  | 0, _ => none
  | fuel + 1, s =>
    match pv s with
    | none => none
    | some (v, r) =>
      match skipWsJ r with
      | ',' :: r2 => (parseItemsF pv fuel r2).map (fun (vs, rr) => (v :: vs, rr))
      | ']' :: r2 => some ([v], r2)
      | _ => none

/-- Comma-separated JSON object members (given an element parser);
consumes the closing brace. -/
def parseFieldsF (pv : List Char → Option (Json × List Char)) :
    Nat → List Char → Option (List (String × Json) × List Char)
  | 0, _ => none
  | fuel + 1, s =>
    match skipWsJ s with
    | '"' :: r =>
      match parseStrBody r with
      | none => none
      | some (kcs, r1) =>
        match skipWsJ r1 with
        | ':' :: r2 =>
          match pv r2 with
          | none => none
          | some (v, r3) =>
            match skipWsJ r3 with
            | ',' :: r4 =>
              (parseFieldsF pv fuel r4).map
                (fun (fs, rr) => ((⟨kcs⟩, v) :: fs, rr))
            | '\x7d' :: r4 => some ([(⟨kcs⟩, v)], r4)
            | _ => none
        | _ => none
    | _ => none

/-- JSON value parser with structural fuel (JSON nesting depth is
bounded by the input length, so `length + 1` fuel always suffices). -/
def parseValueF : Nat → List Char → Option (Json × List Char)
  | 0, _ => none
  | fuel + 1, s =>
    match skipWsJ s with
    | 'n' :: 'u' :: 'l' :: 'l' :: r => some (.null, r)
    | 't' :: 'r' :: 'u' :: 'e' :: r => some (.bool true, r)
    | 'f' :: 'a' :: 'l' :: 's' :: 'e' :: r => some (.bool false, r)
    | '"' :: r => (parseStrBody r).map (fun (cs, rest) => (.str ⟨cs⟩, rest))
    | '[' :: r =>
      (match skipWsJ r with
       | ']' :: r2 => some (.arr [], r2)
       | r1 =>
         (parseItemsF (fun t => parseValueF fuel t) (r1.length + 1) r1).map
           (fun (vs, rr) => (.arr vs, rr)))
    | '\x7b' :: r =>
      (match skipWsJ r with
       | '\x7d' :: r2 => some (.obj [], r2)
       | r1 =>
         (parseFieldsF (fun t => parseValueF fuel t) (r1.length + 1) r1).map
           (fun (fs, rr) => (.obj fs, rr)))
    | s1 => parseNum s1

/-- `JSON.parse`: whole-string parse; `none` models a thrown
`SyntaxError`. -/
def jsonParse (s : String) : Option Json :=
  match parseValueF (s.length + 1) s.data with
  | some (v, rest) => if skipWsJ rest = [] then some v else none
  | none => none

/-! ## JSON serialisation and JS value coercions -/

/-- Lowercase hex digit. -/
def toHexDigit (n : Nat) : Char :=
  if n < 10 then Char.ofNat (48 + n) else Char.ofNat (87 + n)

/-- `JSON.stringify` escaping of one string character: `"`, `\`, the
named control escapes, `\u00XX` for other control characters, all
other characters literal. -/
def escapeChar (c : Char) : List Char :=
  if c = '"' then ['\\', '"']
  else if c = '\\' then ['\\', '\\']
  else if c = '\u0008' then ['\\', 'b']
  else if c = '\u000c' then ['\\', 'f']
  else if c = '\n' then ['\\', 'n']
  else if c = '\r' then ['\\', 'r']
  else if c = '\t' then ['\\', 't']
  else if c.toNat < 0x20 then
    ['\\', 'u', '0', '0', toHexDigit (c.toNat / 16), toHexDigit (c.toNat % 16)]
  else [c]

/-- `JSON.stringify` of a string value. -/
def quoteJS (s : String) : String :=
  ⟨'"' :: s.data.foldr (fun c acc => escapeChar c ++ acc) ['"']⟩

/-- Decimal rendering of the scaled integer `m / 10^e` (trailing
fraction zeros dropped, as JS does for exactly-representable short
decimals; the exponential notation JS switches to for |x| ≥ 1e21 or
< 1e-6 is outside the range of the protocol's numbers). -/
def numToString (m : Int) (e : Nat) : String :=
  if e = 0 then toString m
  else
    let a := m.natAbs
    let ds := (toString a).data
    let ds := (List.replicate (e + 1 - ds.length) '0') ++ ds
    let ipart := ds.take (ds.length - e)
    let fpart := (ds.drop (ds.length - e)).reverse.dropWhile (· = '0') |>.reverse
    let sign : List Char := if m < 0 then ['-'] else []
    if fpart.isEmpty then ⟨sign ++ ipart⟩
    else ⟨sign ++ ipart ++ '.' :: fpart⟩

/-- Comma-join (JS `Array.prototype.join` with default separator). -/
def joinComma : List String → String
  | [] => ""
  | [s] => s
  | s :: rest => s ++ "," ++ joinComma rest

/-- `JSON.stringify` with structural fuel (any fuel exceeding the value
depth yields the exact result; see `stringify`). -/
def stringifyF : Nat → Json → String
  | 0, _ => ""
  | fuel + 1, j =>
    match j with
    | .null => "null"
    | .bool true => "true"
    | .bool false => "false"
    | .num m e => numToString m e
    | .str s => quoteJS s
    | .arr xs => "[" ++ joinComma (xs.map (stringifyF fuel)) ++ "]"
    | .obj fs =>
      "\x7b" ++
        joinComma (fs.map (fun f => quoteJS f.1 ++ ":" ++ stringifyF fuel f.2)) ++
      "\x7d"

mutual

/-- Structural size of a JSON value (strictly bounds its depth, hence
serves as sufficient serialisation fuel). -/
def jsonSize : Json → Nat
  | .null | .bool _ | .num _ _ | .str _ => 1
  | .arr xs => jsonSizeList xs + 1
  | .obj fs => jsonSizeFields fs + 1

/-- Size of a list of JSON values. -/
def jsonSizeList : List Json → Nat
  | [] => 0
  | x :: xs => jsonSize x + jsonSizeList xs + 1

/-- Size of a list of JSON object members. -/
def jsonSizeFields : List (String × Json) → Nat
  | [] => 0
  | (_, v) :: fs => jsonSize v + jsonSizeFields fs + 1

end

/-- `JSON.stringify`: the structural size of the value strictly bounds
its depth, so this fuel is always sufficient. -/
def stringify (j : Json) : String := stringifyF (jsonSize j + 1) j

/-- JS truthiness of a JSON value. -/
def jsTruthy : Json → Bool
  | .null => false
  | .bool b => b
  | .num m _ => m ≠ 0
  | .str s => s ≠ ""
  | .arr _ => true
  | .obj _ => true

/-- Property lookup `v.k` on a parsed JSON value (`none` models
`undefined`; property access on `null` throws and is handled at the
call sites that can receive `null`). -/
def getField (v : Json) (k : String) : Option Json :=
  match v with
  | .obj fs => fs.lookup k
  | _ => none

/-- JS string coercion, as performed by `tokenBuffer += data` and
`reasoningUpdate += JSON.parse(jsonStr)`: exact on strings (the only
case the protocol produces); for the other value shapes the standard
`String(x)` renderings, with fuel as in `stringifyF`. -/
def jsToStringF : Nat → Json → String
  | 0, _ => ""
  | fuel + 1, j =>
    match j with
    | .null => "null"
    | .bool true => "true"
    | .bool false => "false"
    | .num m e => numToString m e
    | .str s => s
    | .arr xs => joinComma (xs.map (jsToStringF fuel))
    | .obj _ => "[object Object]"

/-- JS string coercion `String(x)` / `'' + x`. -/
def jsToString (j : Json) : String := jsToStringF (jsonSize j + 1) j

/-- `Math.round(v * scale)` for the exact decimal `v = m / 10^e`,
  i.e. `⌊v·scale + 1/2⌋`, computed on integers. -/
def jsRoundScaled (m : Int) (e : Nat) (scale : Int) : Int :=
  (2 * m * scale + (10 : Int) ^ e).fdiv (2 * (10 : Int) ^ e)

/-! ## The masked-error regex

`processLine` strips the masked-error markup with
`data.replace(/.*\*\*.*Error:\*\*\s*/, '').trim()`.  The pattern is
embedded as a token list and matched with JS semantics: leftmost start
position wins, `.*`/`\s*` are greedy with backtracking, `.` excludes
line terminators, `\s` is the JS whitespace class. -/

inductive PTok where
  | dotStar
  | wsStar
  | lit (cs : List Char)

/-- Length of the maximal prefix of `s` satisfying `p`. -/
def countWhile (p : Char → Bool) (s : List Char) : Nat :=
  (s.takeWhile p).length

/-- Greedy quantifier trial: try consuming `i` characters (longest
first), succeeding with the first continuation `k` that matches. -/
def tryStar (k : List Char → Option Nat) (s : List Char) : Nat → Option Nat
  | 0 => k s
  | i + 1 =>
    match k (s.drop (i + 1)) with
    | some n => some (i + 1 + n)
    | none => tryStar k s i

/-- Match a token sequence at the head of `s`, returning the number of
characters consumed (greedy, backtracking — JS regex semantics). -/
def matchToks : List PTok → List Char → Option Nat
  | [], _ => some 0
  | .lit l :: rest, s =>
    if l.isPrefixOf s then (matchToks rest (s.drop l.length)).map (l.length + ·)
    else none
  | .dotStar :: rest, s =>
    tryStar (fun t => matchToks rest t) s (countWhile (fun c => !jsLineTerm c) s)
  | .wsStar :: rest, s =>
    tryStar (fun t => matchToks rest t) s (countWhile jsWhitespace s)

/-- Leftmost match of a token pattern: `(start, length)`. -/
def findMatchFrom (pat : List PTok) : List Char → Option (Nat × Nat)
  | [] => (matchToks pat []).map (fun n => (0, n))
  | c :: t =>
    match matchToks pat (c :: t) with
    | some n => some (0, n)
    | none => (findMatchFrom pat t).map (fun (i, n) => (i + 1, n))

/-- The token form of `/.*\*\*.*Error:\*\*\s*/`. -/
def maskedErrorPattern : List PTok :=
  [.dotStar, .lit "**".data, .dotStar, .lit "Error:**".data, .wsStar]

/-- `String.prototype.replace` with the masked-error regex and empty
replacement (non-global: first match only; identity when no match). -/
def replaceMaskedPrefix (s : List Char) : List Char :=
  match findMatchFrom maskedErrorPattern s with
  | none => s
  | some (i, n) => s.take i ++ s.drop (i + n)

/-- `data.replace(/.*\*\*.*Error:\*\*\s*/, '').trim()` from
`processLine`'s masked-error branch. -/
def cleanMaskedError (s : String) : String :=
  ⟨trimChars (replaceMaskedPrefix s.data)⟩

/-! ## `getFriendlyErrorMessage` (src/frontend/src/lib/utils.ts)

The JS function receives the thrown value and uses `err.message` when
it is an `Error`; the embedding receives that message string directly.
`toLowerCase` agrees with ASCII lowering on every message produced by
this codebase. -/

/-- `String.prototype.toLowerCase` (ASCII range). -/
def toLowerStr (s : String) : String := ⟨s.data.map Char.toLower⟩

/-- `String.prototype.includes` on `String`. -/
def includesS (s sub : String) : Bool := containsSub s.data sub.data

/-- Convert raw error messages to user-friendly messages. -/
def getFriendlyErrorMessage (message : String) : String :=
  let lower := toLowerStr message
  if includesS lower "network" || includesS lower "fetch" ||
      includesS lower "econnrefused" then
    "Unable to connect to the server. Please check your internet connection and try again."
  else if includesS lower "timeout" || includesS lower "timed out" then
    "The request took too long. Please try again."
  else if includesS lower "rate limit" || includesS lower "429" then
    "Too many requests. Please wait a moment and try again."
  else if includesS lower "401" || includesS lower "unauthorized" then
    "Authentication failed. Please refresh the page and try again."
  else if includesS lower "500" || includesS lower "internal server" then
    "Something went wrong on our end. Please try again later."
  else if includesS lower "503" || includesS lower "unavailable" then
    "The service is temporarily unavailable. Please try again later."
  else
    "Something went wrong. Please try again."

/-! ## Data model (src/frontend/src/types/index.ts) -/

inductive Role where
  | user
  | assistant
deriving DecidableEq

/-- `Message`.  The optional `data` array of `{reasoning: string}` parts
is modelled as a list of reasoning strings; `[]` models the absent
field (the code stores `undefined` instead of an empty array). -/
structure Msg where
  id : String
  role : Role
  content : String
  data : List String
deriving DecidableEq

inductive FileType where
  | pdf
  | docx
  | web
deriving DecidableEq

/-- `RetrievedChunk`. -/
structure RetrievedChunk where
  id : String
  title : String
  type : FileType
  snippet : String
  relevance : Int
  sourceUrl : String
deriving DecidableEq

/-- `MetricsData`. -/
structure MetricsData where
  retrievalTimeMs : Int
  synthesisTimeMs : Int
deriving DecidableEq

/-- The controller state of one `useChat` instance: the five `useState`
cells plus the `useRef` cells `sessionIdRef`, `startTimeRef` and
`retrievalMsRef` (`abortRef` carries no observable state: an abort only
influences which transport events can still arrive, which executions
model by the scheduler). -/
structure ChatState where
  messages : List Msg
  chunks : List RetrievedChunk
  metrics : Option MetricsData
  isLoading : Bool
  error : Option String
  sessionId : Option String
  startTime : Nat
  retrievalMs : Int
deriving DecidableEq

/-- Per-stream local variables of one `send` invocation: the captured
`boundSessionId` and `assistantId`, the decoder's `buffer`, the
throttler's `tokenBuffer` and `lastUpdateTime`. -/
structure StreamLocal where
  bound : String
  assistantId : String
  buffer : List Char
  tokenBuffer : String
  lastUpdate : Nat
deriving DecidableEq

/-- `isBound`: `sessionIdRef.current === boundSessionId`. -/
def isBound (g : ChatState) (st : StreamLocal) : Bool :=
  g.sessionId = some st.bound

/-! ## Helpers of the hook -/

/-- `getFileType`: extension dispatch on the source path. -/
def getFileType (path : String) : FileType :=
  if ".pdf".data.isSuffixOf path.data then .pdf
  else if ".docx".data.isSuffixOf path.data || ".doc".data.isSuffixOf path.data then .docx
  else .web

/-- `split(/[/\\])/` on a path: split at every `/` or `\`. -/
def splitBySep (p : Char → Bool) : List Char → List (List Char)
  | [] => [[]]
  | c :: r =>
    let ls := splitBySep p r
    if p c then [] :: ls
    else match ls with
      | [] => [[c]]
      | l :: t => (c :: l) :: t

/-- `s.file_path.split(/[/\\]/).pop() || 'Unknown'`. -/
def titleOfPath (fp : String) : String :=
  let seg := (splitBySep (fun c => c = '/' || c = '\\') fp.data).getLastD []
  if seg.isEmpty then "Unknown" else ⟨seg⟩

/-- `relevance: s.score ? Math.round(s.score * 100) : 0` — `null` and
`0` are both falsy.  (A non-numeric truthy `score` would be coerced by
JS; the backend's scores are numbers, so that path is not modelled.) -/
def relevanceOfScore (score : Option Json) : Int :=
  match score with
  | some (.num m e) => if m = 0 then 0 else jsRoundScaled m e 100
  | _ => 0

/-- One record of `mapSources`; a record without a string `file_path`
makes `file_path.split` throw a `TypeError` in JS, modelled as the
error message of that exception. -/
def mapSource (now : Nat) (i : Nat) (s : Json) : Except String RetrievedChunk :=
  match getField s "file_path" with
  | some (.str fp) =>
    .ok
      { id := "chunk-" ++ toString i ++ "-" ++ toString now
        title := titleOfPath fp
        type := getFileType fp
        snippet :=
          match getField s "text" with
          | some (.str t) => t
          | some v => jsToString v
          | none => ""
        relevance := relevanceOfScore (getField s "score")
        sourceUrl := fp }
  | _ => .error "Cannot read properties of undefined (reading 'split')"

/-- `mapSources` (index-threaded; ids embed `Date.now()`). -/
def mapSourcesAux (now : Nat) : Nat → List Json → Except String (List RetrievedChunk)
  | _, [] => .ok []
  | i, s :: rest =>
    match mapSource now i s with
    | .error e => .error e
    | .ok c =>
      match mapSourcesAux now (i + 1) rest with
      | .error e => .error e
      | .ok cs => .ok (c :: cs)

/-- `mapSources`. -/
def mapSources (now : Nat) (sources : List Json) : Except String (List RetrievedChunk) :=
  mapSourcesAux now 0 sources

/-! ## Update throttler (`flushTokens`) -/

/-- The interleaving markers of the token buffer. -/
def reasoningMark : String := "__REASONING__"

/-- End marker of an embedded reasoning segment. -/
def endMark : String := "__END__"

/-- The loop body of `flushTokens`: walk the parts after splitting the
buffer at `__REASONING__`, extracting each reasoning JSON up to
`__END__` (a part without `__END__` contributes nothing; reasoning JSON
that fails to parse is logged and skipped) and appending the text after
`__END__` to the content update. -/
def redistributeParts (contentAcc reasoningAcc : String) :
    List (List Char) → String × String
  | [] => (contentAcc, reasoningAcc)
  | p :: rest =>
    match indexOfSub p endMark.data with
    | none => redistributeParts contentAcc reasoningAcc rest
    | some endIdx =>
      let jsonStr : String := ⟨p.take endIdx⟩
      let reasoningAcc' :=
        match jsonParse jsonStr with
        | some v => reasoningAcc ++ jsToString v
        | none => reasoningAcc
      redistributeParts (contentAcc ++ (⟨p.drop (endIdx + 7)⟩ : String))
        reasoningAcc' rest

/-- Split a flushed buffer into its content and reasoning updates. -/
def redistribute (chunk : String) : String × String :=
  match splitOnSub chunk.data reasoningMark.data with
  | [] => ("", "")
  | p0 :: rest => redistributeParts ⟨p0⟩ "" rest

/-- The `setMessages` updater of `flushTokens`: on the actively
streaming assistant message, append the content update and merge the
reasoning update into the last reasoning part (or push a new part). -/
def updateAssistant (aId contentUpdate reasoningUpdate : String) (m : Msg) : Msg :=
  if m.id ≠ aId then m
  else
    let newData :=
      if reasoningUpdate ≠ "" then
        match m.data.getLast? with
        | some lastSeg =>
          if lastSeg ≠ "" then m.data.dropLast ++ [lastSeg ++ reasoningUpdate]
          else m.data ++ [reasoningUpdate]
        | none => m.data ++ [reasoningUpdate]
      else m.data
    { m with content := m.content ++ contentUpdate, data := newData }

/-- `flushTokens(force)`: commit the token buffer when forced or when
more than 50 ms have elapsed since the last flush; the commit mutates
the store only when the buffer is non-empty and the stream is still
bound. -/
def flushTokens (force : Bool) (now : Nat) (st : StreamLocal) (g : ChatState) :
    StreamLocal × ChatState :=
  if force || decide (50 < now - st.lastUpdate) then
    let chunk := st.tokenBuffer
    let st' := { st with tokenBuffer := "", lastUpdate := now }
    if chunk ≠ "" && isBound g st' then
      let (contentUpdate, reasoningUpdate) := redistribute chunk
      (st',
        { g with
          messages :=
            g.messages.map (updateAssistant st'.assistantId contentUpdate reasoningUpdate) })
    else (st', g)
  else (st, g)

/-! ## Frame interpreter (`processLine`) -/

/-- Result of one synchronous processing step: updated local and global
state, plus a propagating exception (`err.message`) when the step threw. -/
structure StepOut where
  st : StreamLocal
  g : ChatState
  err : Option String
deriving DecidableEq

/-- The `retrieval_time` truthiness check `if (data.retrieval_time)`:
`0`, `null` and a missing field are all falsy.  (A truthy non-numeric
value would be coerced by JS arithmetic; the backend reports numbers,
so that path is not modelled.) -/
def retrievalField (data : Json) : Option (Int × Nat) :=
  match getField data "retrieval_time" with
  | some (.num m e) => if m ≠ 0 then some (m, e) else none
  | _ => none

/-- The tail of the type-`2` branch after the `reasoning` early return:
compute `sources` (`Array.isArray(data) ? data : data.sources || []`;
a truthy non-array `sources` value, which would throw on `.map` in JS,
does not occur and is modelled as absent), record a truthy
`retrieval_time` with provisional metrics, then replace the chunks when
the source list is non-empty. -/
def processType2Rest (now : Nat) (data : Json) (st : StreamLocal) (g : ChatState) :
    StepOut :=
  let sources : List Json :=
    match data with
    | .arr xs => xs
    | _ =>
      match getField data "sources" with
      | some (.arr xs) => xs
      | _ => []
  let g :=
    match retrievalField data with
    | some (m, e) =>
      let r := jsRoundScaled m e 1000
      { g with retrievalMs := r, metrics := some ⟨r, 0⟩ }
    | none => g
  if 0 < sources.length then
    match mapSources now sources with
    | .ok cs => ⟨st, { g with chunks := cs }, none⟩
    | .error e => ⟨st, g, some e⟩
  else ⟨st, g, none⟩

/-- Interpretation of one parsed frame (the body of `processLine` after
`JSON.parse` succeeded).  A type-`0` string payload containing the
masked-error marker `Error:**` throws `new Error(cleanError)` before
anything reaches the token buffer; otherwise the payload joins the
token buffer and a throttled flush is attempted.  A type-`2` frame is
interpreted only while the stream is bound: a truthy `reasoning` field
is encoded into the token buffer (early return), else citations and
retrieval time are handled. -/
def processFrame (now : Nat) (ftype : String) (data : Json)
    (st : StreamLocal) (g : ChatState) : StepOut :=
  if ftype = "0" then
    match data with
    | .str s =>
      if containsSub s.data "Error:**".data then
        ⟨st, g, some (cleanMaskedError s)⟩
      else
        let st := { st with tokenBuffer := st.tokenBuffer ++ s }
        let (st, g) := flushTokens false now st g
        ⟨st, g, none⟩
    | _ =>
      let st := { st with tokenBuffer := st.tokenBuffer ++ jsToString data }
      let (st, g) := flushTokens false now st g
      ⟨st, g, none⟩
  else if ftype = "2" && isBound g st then
    match data with
    | .null => ⟨st, g, some "Cannot read properties of null (reading 'reasoning')"⟩
    | _ =>
      match getField data "reasoning" with
      | some r =>
        if jsTruthy r then
          let st :=
            { st with
              tokenBuffer :=
                st.tokenBuffer ++ reasoningMark ++ stringify r ++ endMark }
          let (st, g) := flushTokens false now st g
          ⟨st, g, none⟩
        else processType2Rest now data st g
      | none => processType2Rest now data st g
  else ⟨st, g, none⟩

/-- `processLine`: split the raw line at the first colon; no colon or a
payload that fails to parse as JSON silently discards the line. -/
def processLine (now : Nat) (line : String) (st : StreamLocal) (g : ChatState) :
    StepOut :=
  match indexOfChar line.data ':' with
  | none => ⟨st, g, none⟩
  | some colonIdx =>
    let ftype : String := ⟨line.data.take colonIdx⟩
    let payload : String := ⟨line.data.drop (colonIdx + 1)⟩
    match jsonParse payload with
    | none => ⟨st, g, none⟩
    | some data => processFrame now ftype data st g

/-- `lines.forEach((l) => l.trim() && processLine(l))`, with a thrown
exception aborting the remaining iterations (it propagates out of the
`forEach`). -/
def processLines (now : Nat) : List (List Char) → StreamLocal → ChatState → StepOut
  | [], st, g => ⟨st, g, none⟩
  | l :: rest, st, g =>
    if trimChars l ≠ [] then
      let out := processLine now ⟨l⟩ st g
      match out.err with
      | some _ => out
      | none => processLines now rest out.st out.g
    else processLines now rest st g

/-- One `reader.read()` delivery: append the decoded text to the
decoder buffer, split off the complete lines, retain the trailing
partial line, and process the complete lines in order. -/
def processChunk (now : Nat) (text : String) (st : StreamLocal) (g : ChatState) :
    StepOut :=
  let (lines, pend) := splitNlP (st.buffer ++ text.data)
  let st := { st with buffer := pend }
  processLines now lines st g

/-! ## Stream completion, catch and finally -/

/-- The `finally` block: `setIsLoading(false)` only while still bound. -/
def finallyStep (st : StreamLocal) (g : ChatState) : ChatState :=
  if isBound g st then { g with isLoading := false } else g

/-- The `catch` block followed by `finally`: an `AbortError` is a
silent no-op, any other error is surfaced via `setError` (friendly
message) while the stream is still bound. -/
def catchFinally (msg : String) (isAbort : Bool) (st : StreamLocal) (g : ChatState) :
    ChatState :=
  let g :=
    if isAbort then g
    else if isBound g st then { g with error := some (getFriendlyErrorMessage msg) }
    else g
  finallyStep st g

/-- End of the read loop (`done`): process a non-blank residual partial
line (which may itself throw), force a final flush, publish the final
metrics `max(0, now − startTime − retrievalMs)` while bound, and run
`finally`. -/
def streamFinish (now : Nat) (st : StreamLocal) (g : ChatState) :
    StreamLocal × ChatState :=
  let out : StepOut :=
    if trimChars st.buffer ≠ [] then processLine now ⟨st.buffer⟩ st g
    else ⟨st, g, none⟩
  match out.err with
  | some e => (out.st, catchFinally e false out.st out.g)
  | none =>
    let (st, g) := flushTokens true now out.st out.g
    let synthesisMs : Int := max 0 ((now : Int) - (g.startTime : Int) - g.retrievalMs)
    let g := if isBound g st then { g with metrics := some ⟨g.retrievalMs, synthesisMs⟩ } else g
    (st, finallyStep st g)

/-- The externally visible events of one running stream, at the
granularity of the synchronous blocks between `await` points: a chunk
arrival (whose processing may throw, reaching `catch`/`finally`),
normal completion, or a transport-level rejection (`AbortError` or a
network failure). -/
inductive StreamStep where
  | chunk (now : Nat) (text : String)
  | finish (now : Nat)
  | fail (msg : String) (isAbort : Bool)
deriving DecidableEq

/-- Apply one stream event to the stream's local state and the shared
controller state. -/
def applyStep : StreamStep → StreamLocal → ChatState → StreamLocal × ChatState
  | .chunk now text, st, g =>
    let out := processChunk now text st g
    match out.err with
    | some e => (out.st, catchFinally e false out.st out.g)
    | none => (out.st, out.g)
  | .finish now, st, g => streamFinish now st g
  | .fail msg isAbort, st, g => (st, catchFinally msg isAbort st g)

/-! ## Session controller operations -/

/-- The initial state of a freshly mounted `useChat`. -/
def emptyChatState : ChatState :=
  { messages := [], chunks := [], metrics := none, isLoading := false,
    error := none, sessionId := none, startTime := 0, retrievalMs := 0 }

/-- The guard of `send`: `if (!content.trim() || isLoading) return`,
where `isLoading` is the value captured by the callback's closure. -/
def sendGuard (content : String) (isLoadingSeen : Bool) : Bool :=
  trimChars content.data ≠ [] && !isLoadingSeen

/-- The synchronous prelude of `send` (after the guard): abort the
previous stream (no direct state change), bind the new session id,
clear error/chunks/metrics, set loading, reset the timing refs, and
append the user message and the empty assistant placeholder.  The
`generateId()` results (timestamp- and randomness-based) are the
`userId`/`assistantId` parameters. -/
def sendStart (content sessionId userId assistantId : String) (now : Nat)
    (g : ChatState) : ChatState :=
  { g with
    sessionId := some sessionId
    error := none
    chunks := []
    metrics := none
    isLoading := true
    startTime := now
    retrievalMs := 0
    messages :=
      g.messages ++
        [⟨userId, .user, content, []⟩, ⟨assistantId, .assistant, "", []⟩] }

/-- The stream-local state created by `send` when the response body
becomes readable (`lastUpdateTime = Date.now()`). -/
def mkStreamLocal (sessionId assistantId : String) (now : Nat) : StreamLocal :=
  { bound := sessionId, assistantId := assistantId, buffer := [],
    tokenBuffer := "", lastUpdate := now }

/-- `loadState`: abort any in-flight stream (no direct state change),
clear loading, replace messages/chunks/metrics, clear the error.  The
source leaves `sessionIdRef`, `startTimeRef` and `retrievalMsRef`
untouched. -/
def loadState (ms : List Msg) (cs : List RetrievedChunk)
    (met : Option MetricsData) (g : ChatState) : ChatState :=
  { g with
    isLoading := false
    messages := ms
    chunks := cs
    metrics := met
    error := none }

/-- `reset`: abort, unbind the session, clear everything. -/
def resetState (g : ChatState) : ChatState :=
  { g with
    sessionId := none
    messages := []
    chunks := []
    metrics := none
    error := none
    isLoading := false }

/-- The truncation part of `reload`: locate the most recent user
message via `[...messages].reverse().findIndex(...)`, drop it and
everything after it, and report its content for the deferred
`send(content, sessionId)`. -/
def reloadTrunc (messages : List Msg) : Option (List Msg × String) :=
  match messages.reverse.findIdx? (fun m => decide (m.role = .user)) with
  | none => none
  | some revIdx =>
    let userIdx := messages.length - 1 - revIdx
    some (messages.take userIdx,
      (messages.getD userIdx ⟨"", .user, "", []⟩).content)

/-! ## Two overlapping streams -/

/-- Shared controller state plus the locals of two streams `a` (older)
and `b` (newer). -/
structure Config2 where
  g : ChatState
  a : StreamLocal
  b : StreamLocal
deriving DecidableEq

/-- An interleaving event: a step of stream `a` or of stream `b`. -/
inductive Act2 where
  | aStep (s : StreamStep)
  | bStep (s : StreamStep)
deriving DecidableEq

/-- Apply one interleaving event. -/
def applyAct2 : Act2 → Config2 → Config2
  | .aStep s, c =>
    let (a', g') := applyStep s c.a c.g
    ⟨g', a', c.b⟩
  | .bStep s, c =>
    let (b', g') := applyStep s c.b c.g
    ⟨g', c.a, b'⟩

/-- Run a schedule of interleaved events. -/
def runActs2 (acts : List Act2) (c : Config2) : Config2 :=
  acts.foldl (fun c a => applyAct2 a c) c

/-- Is this event a step of stream `b`? -/
def Act2.isB : Act2 → Bool
  | .aStep _ => false
  | .bStep _ => true

/-! ## Delta sequences for the throttler contract

A bound stream delivers content deltas (type-`0` string frames) and
reasoning deltas (type-`2` frames with a `reasoning` field); the claim
about the update throttler quantifies over such sequences. -/

inductive Delta where
  | content (s : String)
  | reasoning (r : String)
deriving DecidableEq

/-- The exact text the hook appends to `tokenBuffer` for one delta. -/
def encodeDelta : Delta → String
  | .content s => s
  | .reasoning r => reasoningMark ++ quoteJS r ++ endMark

/-- Buffer text of a run of deltas. -/
def encodeRun : List Delta → String
  | [] => ""
  | d :: ds => encodeDelta d ++ encodeRun ds

/-- Concatenation of the content deltas of a run. -/
def contentsOf : List Delta → String
  | [] => ""
  | .content s :: ds => s ++ contentsOf ds
  | .reasoning _ :: ds => contentsOf ds

/-- Concatenation of the reasoning deltas of a run. -/
def reasoningsOf : List Delta → String
  | [] => ""
  | .content _ :: ds => reasoningsOf ds
  | .reasoning r :: ds => r ++ reasoningsOf ds

/-- The reasoning parts list holding an accumulated reasoning text:
empty for no reasoning, else a single merged part (the hook always
merges into the last reasoning part). -/
def segsOf (r : String) : List String :=
  if r = "" then [] else [r]

/-- Feed one delta to a running stream exactly as `processLine` does:
a content delta is a type-`0` frame with a string payload, a reasoning
delta a type-`2` frame with a `reasoning` field. -/
def applyDelta (nd : Nat × Delta) (sg : StreamLocal × ChatState) :
    StreamLocal × ChatState :=
  match nd.2 with
  | .content s =>
    let o := processFrame nd.1 "0" (.str s) sg.1 sg.2
    (o.st, o.g)
  | .reasoning r =>
    let o := processFrame nd.1 "2" (.obj [("reasoning", .str r)]) sg.1 sg.2
    (o.st, o.g)

/-- Run a timestamped delta sequence. -/
def runDeltas (ds : List (Nat × Delta)) (sg : StreamLocal × ChatState) :
    StreamLocal × ChatState :=
  ds.foldl (fun sg nd => applyDelta nd sg) sg

/-- Per-delta sanity for the throttler contract: a content delta does
not carry the masked-error marker (such a frame is an error event, not
a content delta), and a reasoning delta is non-empty (an empty one is
falsy and never reaches the buffer). -/
def deltaOk : Delta → Bool
  | .content s => !containsSub s.data "Error:**".data
  | .reasoning r => decide (r ≠ "")

/-- Marker-interference freedom: on every contiguous run of the deltas
(i.e. every buffer content a flush can see), splitting the encoded
buffer at the internal markers recovers exactly that run's content and
reasoning parts.  Deltas that contain (or combine into) the marker
strings violate this — see the counterexample. -/
def markerSafe (ds : List Delta) : Bool :=
  ds.tails.all fun t =>
    t.inits.all fun run =>
      decide (redistribute (encodeRun run) = (contentsOf run, reasoningsOf run))

/-- A message store around one assistant message. -/
def mkStore (pre post : List Msg) (aId content : String) (data : List String) :
    List Msg :=
  pre ++ ⟨aId, .assistant, content, data⟩ :: post

/-- The `sources` list a type-`2` frame denotes:
`Array.isArray(data) ? data : data.sources || []`. -/
def extractSources (data : Json) : List Json :=
  match data with
  | .arr xs => xs
  | _ =>
    match getField data "sources" with
    | some (.arr xs) => xs
    | _ => []

/-! ## Concrete scenario states used by witnesses and counterexamples -/

/-- Two overlapping sends that bind the *same* session id `"s"`: the
state right after both preludes ran (the second call was issued before
the first stream delivered anything, with the closure-captured
`isLoading` still `false`). -/
def sameSidCfg : Config2 :=
  let g1 := sendStart "Q1" "s" "u1" "a1" 1000 emptyChatState
  let g2 := sendStart "Q2" "s" "u2" "a2" 1100 g1
  ⟨g2, mkStreamLocal "s" "a1" 1000, mkStreamLocal "s" "a2" 1100⟩

/-- A late citation frame of the superseded first stream (already
queued when the second `send` aborted it), followed by the first
stream's abort rejection, then the second stream's answer and
completion. -/
def sameSidSchedule : List Act2 :=
  [ .aStep (.chunk 1105
      "2:\x7b\"sources\":[\x7b\"file_path\":\"a.pdf\",\"score\":0.5,\"rank\":1,\"text\":\"t\"\x7d]\x7d\n"),
    .aStep (.fail "The operation was aborted" true),
    .bStep (.chunk 1110 "0:\"B answer\"\n"),
    .bStep (.finish 1400) ]

/-- Final configuration of the same-session-id overlap. -/
def sameSidFinal : Config2 := runActs2 sameSidSchedule sameSidCfg

/-- Two overlapping sends binding distinct session ids, for the
witness of the isolation theorem. -/
def distinctSidCfg : Config2 :=
  let g1 := sendStart "Q1" "s1" "u1" "a1" 1000 emptyChatState
  let g2 := sendStart "Q2" "s2" "u2" "a2" 1100 g1
  ⟨g2, mkStreamLocal "s1" "a1" 1000, mkStreamLocal "s2" "a2" 1100⟩

/-- A schedule with late events from the superseded stream interleaved
with the new stream's events. -/
def distinctSidSchedule : List Act2 :=
  [ .aStep (.chunk 1105
      "2:\x7b\"sources\":[\x7b\"file_path\":\"a.pdf\",\"score\":0.5,\"rank\":1,\"text\":\"t\"\x7d]\x7d\n"),
    .bStep (.chunk 1110 "0:\"B answer\"\n"),
    .aStep (.chunk 1115 "0:\"stale text\"\n"),
    .aStep (.fail "The operation was aborted" true),
    .bStep (.finish 1400) ]

/-- The two-frame scenario of §8: `0:"Hello"` then a `2` frame with
retrieval time 0.1 s and one pdf source of score 0.92. -/
def helloLine2 : String :=
  "2:\x7b\"retrieval_time\":0.1,\"sources\":[\x7b\"rank\":1,\"score\":0.92,\"file_path\":\"a/b.pdf\",\"text\":\"x\"\x7d]\x7d"

/-- Run of the §8 scenario: send, one chunk holding both frames, then
completion at 1500 ms. -/
def helloRun : StreamLocal × ChatState :=
  let g0 := sendStart "Hi" "s1" "u1" "a1" 1000 emptyChatState
  let st0 := mkStreamLocal "s1" "a1" 1000
  let out := processChunk 1010 ("0:\"Hello\"\n" ++ helloLine2 ++ "\n") st0 g0
  streamFinish 1500 out.st out.g

/-- The masked-error scenario: a `0` frame whose payload is
`"\n\n**⚠️ Error:** Rate limit reached"`. -/
def maskedErrorRun : StepOut :=
  let g0 := sendStart "Trigger Error" "s1" "u1" "a1" 1000 emptyChatState
  let st0 := mkStreamLocal "s1" "a1" 1000
  processChunk 1010 "0:\"\\n\\n**⚠️ Error:** Rate limit reached\"\n" st0 g0

/-- The catch/finally state after the masked-error throw. -/
def maskedErrorFinal : ChatState :=
  catchFinally (maskedErrorRun.err.getD "") false maskedErrorRun.st maskedErrorRun.g

/-- State after `loadState` replaced a conversation while a stream
bound to `"s1"` was still in flight. -/
def loadedDuringStream : ChatState :=
  let g1 := sendStart "Q" "s1" "u1" "a1" 1000 emptyChatState
  loadState [⟨"m1", .user, "Loaded", []⟩] [⟨"lc", "L", .web, "s", 10, "u"⟩]
    (some ⟨1, 2⟩) g1

/-- A late citation frame of the still-bound in-flight stream arriving
after `loadState`. -/
def lateAfterLoad : StepOut :=
  processLine 1050
    "2:\x7b\"sources\":[\x7b\"file_path\":\"evil.pdf\",\"score\":0.9,\"rank\":1,\"text\":\"z\"\x7d]\x7d"
    (mkStreamLocal "s1" "a1" 1000) loadedDuringStream

/-- A content delta that contains the interleaving marker
`__REASONING__` verbatim, fed to a fresh bound stream and force-flushed
at completion. -/
def markerDeltaRun : StreamLocal × ChatState :=
  let g0 := sendStart "Q" "s1" "u1" "a1" 1000 emptyChatState
  let st0 := mkStreamLocal "s1" "a1" 1000
  let out := processChunk 1010 "0:\"a__REASONING__b\"\n" st0 g0
  flushTokens true 1020 out.st out.g

/-- A `2` frame reporting `retrieval_time: 0` on a fresh turn. -/
def zeroRetrievalOut : StepOut :=
  let g0 := sendStart "Q" "s1" "u1" "a1" 1000 emptyChatState
  processLine 1005 "2:\x7b\"retrieval_time\":0\x7d" (mkStreamLocal "s1" "a1" 1000) g0

/-- A turn state holding one previously stored citation. -/
def storedChunkState : ChatState :=
  { emptyChatState with
    sessionId := some "s1"
    chunks := [⟨"c0", "Old", .web, "o", 50, "u"⟩] }

/-! ## Protocol decoder as a standalone fold (for chunk-boundary
independence)

The read loop's decoding discipline, isolated from frame processing:
per delivery, append to the retained partial line, split off complete
lines; at end of stream, emit the residual if it is non-blank.
(`TextDecoder` with `stream: true` is concatenation-preserving on
character sequences, so chunking is modelled at the character level.) -/

/-- Feed a sequence of text chunks through the decoder, starting from a
retained partial line; returns all emitted complete lines and the final
retained partial line. -/
def feedAll : List (List Char) → List Char → List (List Char) × List Char
  | [], pend => ([], pend)
  | c :: cs, pend =>
    let (ls, p') := splitNlP (pend ++ c)
    let (ls2, pf) := feedAll cs p'
    (ls ++ ls2, pf)

/-- All raw lines the decoder yields for a chunked delivery, including
the end-of-stream residual when it is non-blank. -/
def decodeAll (chunks : List (List Char)) : List (List Char) :=
  let (ls, pend) := feedAll chunks []
  ls ++ (if trimChars pend ≠ [] then [pend] else [])

/-- The chunking-independent specification: split the whole logical
text at newlines, emit every complete line, and the trailing partial
line when non-blank. -/
def canonicalLines (s : List Char) : List (List Char) :=
  let (ls, pend) := splitNlP s
  ls ++ (if trimChars pend ≠ [] then [pend] else [])

/-- Prefix the first line of a split with retained text. -/
def consFirst (p : List Char) : List (List Char) → List (List Char)
  | [] => []
  | h :: t => (p ++ h) :: t

theorem splitNlP_no_newline {p : List Char} (h : '\n' ∉ p) :
    splitNlP p = ([], p) := by
  induction p with
  | nil => rfl
  | cons c r ih =>
    have hc : c ≠ '\n' := fun hc => h (hc ▸ List.mem_cons_self c r)
    have hr : '\n' ∉ r := fun hm => h (List.mem_cons_of_mem c hm)
    simp [splitNlP, ih hr, hc]

theorem splitNlP_snd_no_newline (s : List Char) : '\n' ∉ (splitNlP s).2 := by
  induction s with
  | nil => simp [splitNlP]
  | cons c r ih =>
    by_cases hc : c = '\n'
    · simp [splitNlP, hc, ih]
    · cases hls : (splitNlP r).1 with
      | nil =>
        simp only [splitNlP, hls]
        simp only [hc, if_false]
        intro hmem
        rcases List.mem_cons.mp hmem with h | h
        · exact hc h.symm
        · exact ih h
      | cons l ls' => simpa [splitNlP, hls, hc] using ih

theorem splitNlP_append_fst (a b : List Char) :
    (splitNlP (a ++ b)).1 =
      (splitNlP a).1 ++ consFirst (splitNlP a).2 (splitNlP b).1 := by
  induction a with
  | nil =>
    simp only [List.nil_append, splitNlP]
    cases hls : (splitNlP b).1 <;> simp [consFirst]
  | cons c a' ih =>
    rcases hsp : splitNlP (a' ++ b) with ⟨ls, p⟩
    rcases hsa : splitNlP a' with ⟨la, pa⟩
    rcases hsb : splitNlP b with ⟨lb, pb⟩
    rw [hsp, hsa, hsb] at ih
    simp only at ih
    by_cases hc : c = '\n'
    · simp [List.cons_append, splitNlP, hsp, hsa, hsb, hc, ih]
    · cases la with
      | nil =>
        cases lb with
        | nil => simp_all [List.cons_append, splitNlP, consFirst]
        | cons h t => simp_all [List.cons_append, splitNlP, consFirst]
      | cons l t => simp_all [List.cons_append, splitNlP, consFirst]

theorem splitNlP_append_snd (a b : List Char) :
    (splitNlP (a ++ b)).2 =
      if (splitNlP b).1.isEmpty then (splitNlP a).2 ++ (splitNlP b).2
      else (splitNlP b).2 := by
  induction a with
  | nil =>
    simp only [List.nil_append, splitNlP]
    cases hls : (splitNlP b).1 <;> simp
  | cons c a' ih =>
    have hf := splitNlP_append_fst a' b
    rcases hsp : splitNlP (a' ++ b) with ⟨ls, p⟩
    rcases hsa : splitNlP a' with ⟨la, pa⟩
    rcases hsb : splitNlP b with ⟨lb, pb⟩
    rw [hsp, hsa, hsb] at ih hf
    simp only at ih hf
    by_cases hc : c = '\n'
    · simp [List.cons_append, splitNlP, hsp, hsa, hsb, hc, ih]
    · cases la with
      | nil =>
        cases lb with
        | nil => simp_all [List.cons_append, splitNlP, consFirst]
        | cons h t => simp_all [List.cons_append, splitNlP, consFirst]
      | cons l t => simp_all [List.cons_append, splitNlP, consFirst]

theorem feedAll_eq (cs : List (List Char)) :
    ∀ pend, '\n' ∉ pend →
      feedAll cs pend = splitNlP (pend ++ cs.flatten) := by
  induction cs with
  | nil =>
    intro pend h
    simp [feedAll, splitNlP_no_newline h]
  | cons c cs ih =>
    intro pend h
    have h2 := splitNlP_snd_no_newline (pend ++ c)
    have hfst := splitNlP_append_fst (pend ++ c) cs.flatten
    have hsnd := splitNlP_append_snd (pend ++ c) cs.flatten
    have hfst2 := splitNlP_append_fst ((splitNlP (pend ++ c)).2) cs.flatten
    have hsnd2 := splitNlP_append_snd ((splitNlP (pend ++ c)).2) cs.flatten
    rw [splitNlP_no_newline h2] at hfst2 hsnd2
    simp only at hfst2 hsnd2
    have hrec := ih ((splitNlP (pend ++ c)).2) h2
    simp only [feedAll, hrec, List.flatten_cons, ← List.append_assoc]
    rcases hmid : splitNlP ((splitNlP (pend ++ c)).2 ++ cs.flatten) with ⟨ml, mp⟩
    rcases hall : splitNlP (pend ++ c ++ cs.flatten) with ⟨al, ap⟩
    rw [hmid] at hfst2 hsnd2
    rw [hall] at hfst hsnd
    simp only at hfst hsnd hfst2 hsnd2
    cases hfl : (splitNlP cs.flatten).1 with
    | nil => simp_all [consFirst]
    | cons l t => simp_all [consFirst]

/-! ## Session binding lemmas

A stream whose bound session id differs from the controller's current
one cannot mutate the controller state: every write site is guarded by
`isBound` (or sits behind the type-`2` guard), and no stream step ever
writes `sessionIdRef`. -/

theorem isBound_congr {g g' : ChatState} {st st' : StreamLocal}
    (hs : g'.sessionId = g.sessionId) (hb : st'.bound = st.bound) :
    isBound g' st' = isBound g st := by
  simp [isBound, hs, hb]

theorem flushTokens_fst_bound (f : Bool) (now : Nat) (st : StreamLocal)
    (g : ChatState) : (flushTokens f now st g).1.bound = st.bound := by
  simp only [flushTokens]
  repeat' split
  all_goals rfl

theorem flushTokens_fst_assistantId (f : Bool) (now : Nat) (st : StreamLocal)
    (g : ChatState) : (flushTokens f now st g).1.assistantId = st.assistantId := by
  simp only [flushTokens]
  repeat' split
  all_goals rfl

theorem flushTokens_snd_sessionId (f : Bool) (now : Nat) (st : StreamLocal)
    (g : ChatState) : (flushTokens f now st g).2.sessionId = g.sessionId := by
  simp only [flushTokens]
  repeat' split
  all_goals rfl

theorem flushTokens_snd_of_not_bound {g : ChatState} {st : StreamLocal}
    (f : Bool) (now : Nat) (h : isBound g st = false) :
    (flushTokens f now st g).2 = g := by
  have h' : isBound g { st with tokenBuffer := "", lastUpdate := now } = false := h
  simp only [flushTokens, h', Bool.and_false]
  repeat' split
  all_goals first
    | rfl
    | simp_all

theorem processType2Rest_st (now : Nat) (data : Json) (st : StreamLocal)
    (g : ChatState) : (processType2Rest now data st g).st = st := by
  simp only [processType2Rest]
  repeat' split
  all_goals rfl

theorem processType2Rest_g_sessionId (now : Nat) (data : Json) (st : StreamLocal)
    (g : ChatState) :
    (processType2Rest now data st g).g.sessionId = g.sessionId := by
  simp only [processType2Rest]
  repeat' split
  all_goals rfl

theorem processFrame_st_bound (now : Nat) (ftype : String) (data : Json)
    (st : StreamLocal) (g : ChatState) :
    (processFrame now ftype data st g).st.bound = st.bound := by
  simp only [processFrame]
  repeat' split
  all_goals first
    | rfl
    | exact flushTokens_fst_bound _ _ _ _
    | (rw [processType2Rest_st])

theorem processFrame_st_assistantId (now : Nat) (ftype : String) (data : Json)
    (st : StreamLocal) (g : ChatState) :
    (processFrame now ftype data st g).st.assistantId = st.assistantId := by
  simp only [processFrame]
  repeat' split
  all_goals first
    | rfl
    | exact flushTokens_fst_assistantId _ _ _ _
    | (rw [processType2Rest_st])

theorem processFrame_g_sessionId (now : Nat) (ftype : String) (data : Json)
    (st : StreamLocal) (g : ChatState) :
    (processFrame now ftype data st g).g.sessionId = g.sessionId := by
  simp only [processFrame]
  repeat' split
  all_goals first
    | rfl
    | exact flushTokens_snd_sessionId _ _ _ _
    | exact processType2Rest_g_sessionId _ _ _ _

theorem processFrame_stale {g : ChatState} {st : StreamLocal}
    (now : Nat) (ftype : String) (data : Json) (h : isBound g st = false) :
    (processFrame now ftype data st g).g = g := by
  simp only [processFrame, h, Bool.and_false, if_false]
  repeat' split
  all_goals first
    | rfl
    | exact flushTokens_snd_of_not_bound _ _ h
    | simp_all

theorem processLine_st_bound (now : Nat) (line : String) (st : StreamLocal)
    (g : ChatState) : (processLine now line st g).st.bound = st.bound := by
  simp only [processLine]
  repeat' split
  all_goals first
    | rfl
    | exact processFrame_st_bound _ _ _ _ _

theorem processLine_st_assistantId (now : Nat) (line : String) (st : StreamLocal)
    (g : ChatState) :
    (processLine now line st g).st.assistantId = st.assistantId := by
  simp only [processLine]
  repeat' split
  all_goals first
    | rfl
    | exact processFrame_st_assistantId _ _ _ _ _

theorem processLine_g_sessionId (now : Nat) (line : String) (st : StreamLocal)
    (g : ChatState) : (processLine now line st g).g.sessionId = g.sessionId := by
  simp only [processLine]
  repeat' split
  all_goals first
    | rfl
    | exact processFrame_g_sessionId _ _ _ _ _

theorem processLine_stale {g : ChatState} {st : StreamLocal}
    (now : Nat) (line : String) (h : isBound g st = false) :
    (processLine now line st g).g = g := by
  simp only [processLine]
  repeat' split
  all_goals first
    | rfl
    | exact processFrame_stale _ _ _ h

theorem processLines_st_bound (now : Nat) :
    ∀ (ls : List (List Char)) (st : StreamLocal) (g : ChatState),
      (processLines now ls st g).st.bound = st.bound := by
  intro ls
  induction ls with
  | nil => intro st g; rfl
  | cons l rest ih =>
    intro st g
    simp only [processLines]
    split
    · rcases hout : processLine now ⟨l⟩ st g with ⟨st', g', err⟩
      have hb' : st'.bound = st.bound := by
        have := processLine_st_bound now ⟨l⟩ st g
        rw [hout] at this
        exact this
      cases err with
      | some e => simp [hout, hb']
      | none => simp only [hout]; rw [ih st' g']; exact hb'
    · exact ih st g

theorem processLines_st_assistantId (now : Nat) :
    ∀ (ls : List (List Char)) (st : StreamLocal) (g : ChatState),
      (processLines now ls st g).st.assistantId = st.assistantId := by
  intro ls
  induction ls with
  | nil => intro st g; rfl
  | cons l rest ih =>
    intro st g
    simp only [processLines]
    split
    · rcases hout : processLine now ⟨l⟩ st g with ⟨st', g', err⟩
      have hb' : st'.assistantId = st.assistantId := by
        have := processLine_st_assistantId now ⟨l⟩ st g
        rw [hout] at this
        exact this
      cases err with
      | some e => simp [hout, hb']
      | none => simp only [hout]; rw [ih st' g']; exact hb'
    · exact ih st g

theorem processLines_g_sessionId (now : Nat) :
    ∀ (ls : List (List Char)) (st : StreamLocal) (g : ChatState),
      (processLines now ls st g).g.sessionId = g.sessionId := by
  intro ls
  induction ls with
  | nil => intro st g; rfl
  | cons l rest ih =>
    intro st g
    simp only [processLines]
    split
    · rcases hout : processLine now ⟨l⟩ st g with ⟨st', g', err⟩
      have hs' : g'.sessionId = g.sessionId := by
        have := processLine_g_sessionId now ⟨l⟩ st g
        rw [hout] at this
        exact this
      cases err with
      | some e => simp [hout, hs']
      | none => simp only [hout]; rw [ih st' g']; exact hs'
    · exact ih st g

theorem processLines_stale (now : Nat) :
    ∀ (ls : List (List Char)) (st : StreamLocal) (g : ChatState),
      isBound g st = false → (processLines now ls st g).g = g := by
  intro ls
  induction ls with
  | nil => intro st g _; rfl
  | cons l rest ih =>
    intro st g h
    simp only [processLines]
    split
    · rcases hout : processLine now ⟨l⟩ st g with ⟨st', g', err⟩
      have hg' : g' = g := by
        have := processLine_stale now ⟨l⟩ h
        rw [hout] at this
        exact this
      have hb' : st'.bound = st.bound := by
        have := processLine_st_bound now ⟨l⟩ st g
        rw [hout] at this
        exact this
      cases err with
      | some e => simp [hout, hg']
      | none =>
        have hnb : isBound g' st' = false := by
          rw [isBound_congr (by rw [hg']) hb']
          exact h
        simp only [hout]
        rw [ih st' g' hnb]
        exact hg'
    · exact ih st g h

theorem processChunk_st_bound (now : Nat) (text : String) (st : StreamLocal)
    (g : ChatState) : (processChunk now text st g).st.bound = st.bound := by
  simp only [processChunk]
  exact processLines_st_bound now _ _ _

theorem processChunk_g_sessionId (now : Nat) (text : String) (st : StreamLocal)
    (g : ChatState) : (processChunk now text st g).g.sessionId = g.sessionId := by
  simp only [processChunk]
  exact processLines_g_sessionId now _ _ _

theorem processChunk_stale {g : ChatState} {st : StreamLocal}
    (now : Nat) (text : String) (h : isBound g st = false) :
    (processChunk now text st g).g = g := by
  simp only [processChunk]
  exact processLines_stale now _ _ _ h

theorem finallyStep_sessionId (st : StreamLocal) (g : ChatState) :
    (finallyStep st g).sessionId = g.sessionId := by
  simp only [finallyStep]
  split <;> rfl

theorem finallyStep_stale {g : ChatState} {st : StreamLocal}
    (h : isBound g st = false) : finallyStep st g = g := by
  simp [finallyStep, h]

theorem catchFinally_sessionId (msg : String) (isAbort : Bool) (st : StreamLocal)
    (g : ChatState) : (catchFinally msg isAbort st g).sessionId = g.sessionId := by
  simp only [catchFinally]
  repeat' split
  all_goals first
    | rfl
    | exact finallyStep_sessionId _ _

theorem catchFinally_stale {g : ChatState} {st : StreamLocal}
    (msg : String) (isAbort : Bool) (h : isBound g st = false) :
    catchFinally msg isAbort st g = g := by
  simp only [catchFinally, h, Bool.false_eq_true, if_false]
  split <;> exact finallyStep_stale h

theorem streamFinish_sessionId (now : Nat) (st : StreamLocal) (g : ChatState) :
    (streamFinish now st g).2.sessionId = g.sessionId := by
  simp only [streamFinish]
  rcases hout :
      (if trimChars st.buffer ≠ [] then processLine now ⟨st.buffer⟩ st g
       else ⟨st, g, none⟩) with ⟨st', g', err⟩
  have hs' : g'.sessionId = g.sessionId := by
    have : ((if trimChars st.buffer ≠ [] then processLine now ⟨st.buffer⟩ st g
        else ⟨st, g, none⟩) : StepOut).g.sessionId = g.sessionId := by
      split
      · exact processLine_g_sessionId _ _ _ _
      · rfl
    rw [hout] at this
    exact this
  cases err with
  | some e => simp only [hout]; rw [catchFinally_sessionId]; exact hs'
  | none =>
    simp only [hout]
    rcases hfl : flushTokens true now st' g' with ⟨st2, g2⟩
    have hs2 : g2.sessionId = g'.sessionId := by
      have := flushTokens_snd_sessionId true now st' g'
      rw [hfl] at this
      exact this
    split
    · rw [finallyStep_sessionId]; simp [hs2, hs']
    · rw [finallyStep_sessionId]; simp [hs2, hs']

theorem streamFinish_stale {g : ChatState} {st : StreamLocal}
    (now : Nat) (h : isBound g st = false) : (streamFinish now st g).2 = g := by
  simp only [streamFinish]
  rcases hout :
      (if trimChars st.buffer ≠ [] then processLine now ⟨st.buffer⟩ st g
       else ⟨st, g, none⟩) with ⟨st', g', err⟩
  have hg' : g' = g := by
    have : ((if trimChars st.buffer ≠ [] then processLine now ⟨st.buffer⟩ st g
        else ⟨st, g, none⟩) : StepOut).g = g := by
      split
      · exact processLine_stale _ _ h
      · rfl
    rw [hout] at this
    exact this
  have hb' : st'.bound = st.bound := by
    have : ((if trimChars st.buffer ≠ [] then processLine now ⟨st.buffer⟩ st g
        else ⟨st, g, none⟩) : StepOut).st.bound = st.bound := by
      split
      · exact processLine_st_bound _ _ _ _
      · rfl
    rw [hout] at this
    exact this
  have hnb : isBound g' st' = false := by
    rw [isBound_congr (by rw [hg']) hb']
    exact h
  cases err with
  | some e =>
    simp only [hout]
    rw [catchFinally_stale _ _ hnb]
    exact hg'
  | none =>
    simp only [hout]
    rcases hfl : flushTokens true now st' g' with ⟨st2, g2⟩
    have hg2 : g2 = g' := by
      have := flushTokens_snd_of_not_bound true now hnb
      rw [hfl] at this
      exact this
    have hb2 : st2.bound = st'.bound := by
      have := flushTokens_fst_bound true now st' g'
      rw [hfl] at this
      exact this
    have hnb2 : isBound g2 st2 = false := by
      rw [@isBound_congr g' g2 st' st2 (by rw [hg2]) hb2]
      exact hnb
    simp only [hnb2, Bool.false_eq_true, if_false]
    rw [finallyStep_stale hnb2, hg2, hg']

theorem applyStep_st_bound (s : StreamStep) (st : StreamLocal) (g : ChatState) :
    (applyStep s st g).1.bound = st.bound := by
  cases s with
  | chunk now text =>
    simp only [applyStep]
    rcases hout : processChunk now text st g with ⟨st', g', err⟩
    have hb' : st'.bound = st.bound := by
      have := processChunk_st_bound now text st g
      rw [hout] at this
      exact this
    cases err with
    | some e => simpa [hout] using hb'
    | none => simpa [hout] using hb'
  | finish now =>
    simp only [applyStep, streamFinish]
    rcases hout :
        (if trimChars st.buffer ≠ [] then processLine now ⟨st.buffer⟩ st g
         else ⟨st, g, none⟩) with ⟨st', g', err⟩
    have hb' : st'.bound = st.bound := by
      have : ((if trimChars st.buffer ≠ [] then processLine now ⟨st.buffer⟩ st g
          else ⟨st, g, none⟩) : StepOut).st.bound = st.bound := by
        split
        · exact processLine_st_bound _ _ _ _
        · rfl
      rw [hout] at this
      exact this
    cases err with
    | some e => simpa [hout] using hb'
    | none =>
      simp only [hout]
      rcases hfl : flushTokens true now st' g' with ⟨st2, g2⟩
      have hb2 : st2.bound = st'.bound := by
        have := flushTokens_fst_bound true now st' g'
        rw [hfl] at this
        exact this
      simpa using hb2.trans hb'
  | fail msg isAbort => rfl

theorem applyStep_g_sessionId (s : StreamStep) (st : StreamLocal) (g : ChatState) :
    (applyStep s st g).2.sessionId = g.sessionId := by
  cases s with
  | chunk now text =>
    simp only [applyStep]
    rcases hout : processChunk now text st g with ⟨st', g', err⟩
    have hs' : g'.sessionId = g.sessionId := by
      have := processChunk_g_sessionId now text st g
      rw [hout] at this
      exact this
    cases err with
    | some e => simp only [hout]; rw [catchFinally_sessionId]; exact hs'
    | none => simpa [hout] using hs'
  | finish now => exact streamFinish_sessionId now st g
  | fail msg isAbort => exact catchFinally_sessionId msg isAbort st g

theorem applyStep_stale {g : ChatState} {st : StreamLocal}
    (s : StreamStep) (h : isBound g st = false) : (applyStep s st g).2 = g := by
  cases s with
  | chunk now text =>
    simp only [applyStep]
    rcases hout : processChunk now text st g with ⟨st', g', err⟩
    have hg' : g' = g := by
      have := processChunk_stale now text h
      rw [hout] at this
      exact this
    have hb' : st'.bound = st.bound := by
      have := processChunk_st_bound now text st g
      rw [hout] at this
      exact this
    have hnb : isBound g' st' = false := by
      rw [isBound_congr (by rw [hg']) hb']
      exact h
    cases err with
    | some e => simp only [hout]; rw [catchFinally_stale _ _ hnb]; exact hg'
    | none => simpa [hout] using hg'
  | finish now => exact streamFinish_stale now h
  | fail msg isAbort => exact catchFinally_stale msg isAbort h

/-- Deleting the steps of a superseded stream from a schedule does not
change the controller state or the newer stream's local state, provided
the newer stream is bound to a *different* session id.  The `a2`
generalisation makes the superseded stream's local state irrelevant on
the filtered side. -/
theorem runActs2_filterB (sidA sidB : String) (hne : sidB ≠ sidA) :
    ∀ (acts : List Act2) (g : ChatState) (a a2 b : StreamLocal),
      g.sessionId = some sidB → a.bound = sidA → b.bound = sidB →
      (runActs2 acts ⟨g, a, b⟩).g = (runActs2 (acts.filter Act2.isB) ⟨g, a2, b⟩).g ∧
      (runActs2 acts ⟨g, a, b⟩).b = (runActs2 (acts.filter Act2.isB) ⟨g, a2, b⟩).b := by
  intro acts
  induction acts with
  | nil => intro g a a2 b _ _ _; exact ⟨rfl, rfl⟩
  | cons act rest ih =>
    intro g a a2 b hg ha hb
    cases act with
    | aStep s =>
      have hstale : isBound g a = false := by
        simp [isBound, hg, ha, hne]
      rcases happ : applyStep s a g with ⟨a', g'⟩
      have hg' : g' = g := by
        have := applyStep_stale s hstale
        rw [happ] at this
        exact this
      have hab : a'.bound = a.bound := by
        have := applyStep_st_bound s a g
        rw [happ] at this
        exact this
      rw [hg'] at happ
      simp only [runActs2, List.foldl_cons, List.filter_cons, applyAct2, happ,
        Act2.isB, Bool.false_eq_true, if_false]
      exact ih g a' a2 b hg (hab.trans ha) hb
    | bStep s =>
      rcases happ : applyStep s b g with ⟨b', g'⟩
      have hs' : g'.sessionId = g.sessionId := by
        have := applyStep_g_sessionId s b g
        rw [happ] at this
        exact this
      have hbb : b'.bound = b.bound := by
        have := applyStep_st_bound s b g
        rw [happ] at this
        exact this
      simp only [runActs2, List.foldl_cons, List.filter_cons, applyAct2, happ,
        Act2.isB, if_true]
      exact ih g' a a2 b' (hs'.trans hg) ha (hbb.trans hb)

/-! ## Metrics / citation lemmas for the type-2 branch -/

theorem flushTokens_snd_retrievalMs (f : Bool) (now : Nat) (st : StreamLocal)
    (g : ChatState) : (flushTokens f now st g).2.retrievalMs = g.retrievalMs := by
  simp only [flushTokens]
  repeat' split
  all_goals rfl

theorem flushTokens_snd_startTime (f : Bool) (now : Nat) (st : StreamLocal)
    (g : ChatState) : (flushTokens f now st g).2.startTime = g.startTime := by
  simp only [flushTokens]
  repeat' split
  all_goals rfl

theorem finallyStep_metrics (st : StreamLocal) (g : ChatState) :
    (finallyStep st g).metrics = g.metrics := by
  simp only [finallyStep]
  split <;> rfl

/-- With the stream bound, a non-null type-`2` payload without a truthy
`reasoning` field reaches the citations/metrics tail. -/
theorem processFrame_type2_obj (now : Nat) (fs : List (String × Json))
    (st : StreamLocal) (g : ChatState) (hb : isBound g st = true)
    (hr : ∀ r, fs.lookup "reasoning" = some r → jsTruthy r = false) :
    processFrame now "2" (.obj fs) st g = processType2Rest now (.obj fs) st g := by
  simp only [processFrame, hb, Bool.and_true]
  cases hgf : fs.lookup "reasoning" with
  | none => simp [getField, hgf]
  | some r => simp [getField, hgf, hr r hgf]

/-- Array payloads have no `reasoning` property and reach the tail
directly. -/
theorem processFrame_type2_arr (now : Nat) (xs : List Json)
    (st : StreamLocal) (g : ChatState) (hb : isBound g st = true) :
    processFrame now "2" (.arr xs) st g = processType2Rest now (.arr xs) st g := by
  simp [processFrame, hb, getField]

theorem processType2Rest_metrics (now : Nat) (data : Json) (st : StreamLocal)
    (g : ChatState) (m : Int) (e : Nat)
    (hret : retrievalField data = some (m, e)) :
    (processType2Rest now data st g).g.metrics = some ⟨jsRoundScaled m e 1000, 0⟩ ∧
    (processType2Rest now data st g).g.retrievalMs = jsRoundScaled m e 1000 := by
  simp only [processType2Rest, hret]
  repeat' split
  all_goals exact ⟨rfl, rfl⟩

/-- The inline `sources` computation of the tail agrees with
`extractSources`. -/
theorem sources_eq_extractSources (data : Json) :
    (match data with
      | .arr xs => xs
      | _ =>
        match getField data "sources" with
        | some (.arr xs) => xs
        | _ => []) = extractSources data := by
  cases data <;> rfl

theorem processType2Rest_chunks (now : Nat) (data : Json) (st : StreamLocal)
    (g : ChatState) (cs : List RetrievedChunk)
    (hok : mapSources now (extractSources data) = .ok cs) :
    (processType2Rest now data st g).g.chunks =
      if (extractSources data).isEmpty then g.chunks else cs := by
  simp only [processType2Rest, sources_eq_extractSources]
  rcases hes : extractSources data with _ | ⟨s0, ss⟩
  · rw [hes] at hok
    simp only [List.length_nil, List.isEmpty_nil, if_true]
    repeat' split
    all_goals simp_all
  · rw [hes] at hok
    simp only [hok, List.length_cons, List.isEmpty_cons, if_false]
    repeat' split
    all_goals simp_all

/-- Final metrics publication at stream completion (no residual line,
still bound): `synthesisTimeMs = max(0, now − startTime −
retrievalMs)`. -/
theorem streamFinish_metrics (now : Nat) (st : StreamLocal) (g : ChatState)
    (hb : isBound g st = true) (hres : trimChars st.buffer = []) :
    (streamFinish now st g).2.metrics =
      some ⟨g.retrievalMs, max 0 ((now : Int) - (g.startTime : Int) - g.retrievalMs)⟩ := by
  simp only [streamFinish, hres, ne_eq, not_true_eq_false, if_false]
  rcases hfl : flushTokens true now st g with ⟨st2, g2⟩
  have hs2 : g2.sessionId = g.sessionId := by
    have := flushTokens_snd_sessionId true now st g
    rw [hfl] at this
    exact this
  have hb2 : st2.bound = st.bound := by
    have := flushTokens_fst_bound true now st g
    rw [hfl] at this
    exact this
  have hr2 : g2.retrievalMs = g.retrievalMs := by
    have := flushTokens_snd_retrievalMs true now st g
    rw [hfl] at this
    exact this
  have ht2 : g2.startTime = g.startTime := by
    have := flushTokens_snd_startTime true now st g
    rw [hfl] at this
    exact this
  have hbb : isBound g2 st2 = true := by
    rw [isBound_congr hs2 hb2]
    exact hb
  simp [hfl, hbb, finallyStep_metrics, hr2, ht2]

/-! ## Claim theorems -/

theorem decodeAll_canonical (cs : List (List Char)) :
    decodeAll cs = canonicalLines cs.flatten := by
  have h := feedAll_eq cs [] (by simp)
  simp [decodeAll, canonicalLines, h]

/-- C4: for every logical character stream and every way of splitting
it into delivery chunks, the decoder yields the identical ordered
sequence of raw lines — all complete lines in arrival order (the
trailing partial line being carried across chunks), plus the residual
partial line at stream end when it is non-blank.  Stated as: the
decoded line sequence equals the canonical split of the whole text,
hence is invariant under re-chunking. -/
theorem C4_decoder_chunk_boundary_independence :
    (∀ cs : List (List Char), decodeAll cs = canonicalLines cs.flatten) ∧
    (∀ cs cs' : List (List Char), cs.flatten = cs'.flatten →
      decodeAll cs = decodeAll cs') :=
  ⟨decodeAll_canonical, fun cs cs' h => by
    rw [decodeAll_canonical, decodeAll_canonical, h]⟩

/-- Witness for C4: the same two-line text delivered as two chunks cut
inside the first JSON payload, and as one chunk, decodes identically. -/
theorem C4_witness :
    (["0:\"Hel".data, "lo\"\n2:[]".data] : List (List Char)).flatten =
        (["0:\"Hello\"\n2:[]".data] : List (List Char)).flatten ∧
    decodeAll ["0:\"Hel".data, "lo\"\n2:[]".data] =
      decodeAll ["0:\"Hello\"\n2:[]".data] :=
  ⟨rfl, C4_decoder_chunk_boundary_independence.2 _ _ rfl⟩

/-- C1 (amended): when the second of two overlapping `send` calls binds
a *different* session id than the first stream's, the first stream's
late events (chunk arrivals, completion, failures — whatever the
interleaving) leave the controller state untouched: the final state of
any schedule equals the final state of the schedule with every event of
the superseded stream deleted.  As the counterexample shows, the claim
is false as stated when both sends bind the same session id: the
binding check compares session ids, not stream identities, so a late
event of the first stream still passes it. -/
theorem C1_superseded_stream_events_absent
    (sidA sidB : String) (hne : sidB ≠ sidA)
    (acts : List Act2) (g : ChatState) (a b : StreamLocal)
    (hg : g.sessionId = some sidB) (ha : a.bound = sidA) (hb : b.bound = sidB) :
    (runActs2 acts ⟨g, a, b⟩).g = (runActs2 (acts.filter Act2.isB) ⟨g, a, b⟩).g :=
  (runActs2_filterB sidA sidB hne acts g a a b hg ha hb).1

/-- Witness for C1: a concrete interleaving of late first-stream events
with the second stream's events, for distinct session ids. -/
theorem C1_witness :
    (("s2" : String) ≠ "s1") ∧
    (runActs2 distinctSidSchedule distinctSidCfg).g =
      (runActs2 (distinctSidSchedule.filter Act2.isB) distinctSidCfg).g :=
  ⟨by decide,
    C1_superseded_stream_events_absent "s1" "s2" (by decide) distinctSidSchedule
      distinctSidCfg.g distinctSidCfg.a distinctSidCfg.b rfl rfl rfl⟩

/-- Counterexample to C1 as stated: two overlapping sends on one
controller binding the *same* session id `"s"`.  A citation frame of
the first (already aborted) stream processed after the second send's
prelude passes the `isBound` check and installs the first stream's
citation set; it is still present after the second stream completed, so
an event originating from the first stream mutated the final state. -/
theorem C1_counterexample :
    sameSidFinal.g.chunks =
        [⟨"chunk-0-1105", "a.pdf", .pdf, "t", 50, "a.pdf"⟩] ∧
    sameSidFinal.g.chunks ≠ [] ∧
    sameSidFinal.g.messages.map Msg.content = ["Q1", "", "Q2", "B answer"] :=
  ⟨rfl, by decide, rfl⟩

/-- C2: reading the snapshot right after `loadState(m, c, met)` returns
exactly `m`, `c`, `met` with the error cleared and loading off — but
`loadState` leaves `sessionIdRef` bound (unlike `reset`), so a late
event of a stream that was in flight at the `loadState` call still
passes the binding check and replaces the freshly loaded citations:
the replacement is *not* atomic with respect to in-flight stream
cancellation.  The last conjunct exhibits the corruption. -/
theorem C2_loadState_roundtrip_not_atomic :
    (∀ (ms : List Msg) (cs : List RetrievedChunk) (met : Option MetricsData)
        (g : ChatState),
      (loadState ms cs met g).messages = ms ∧
      (loadState ms cs met g).chunks = cs ∧
      (loadState ms cs met g).metrics = met ∧
      (loadState ms cs met g).error = none ∧
      (loadState ms cs met g).isLoading = false ∧
      (loadState ms cs met g).sessionId = g.sessionId) ∧
    loadedDuringStream.chunks = [⟨"lc", "L", .web, "s", 10, "u"⟩] ∧
    lateAfterLoad.g.chunks =
      [⟨"chunk-0-1050", "evil.pdf", .pdf, "z", 90, "evil.pdf"⟩] :=
  ⟨fun _ _ _ _ => ⟨rfl, rfl, rfl, rfl, rfl, rfl⟩, rfl, rfl⟩

/-- C3: a type-`0` frame whose string payload carries the masked-error
marker makes the turn fail before anything reaches the token buffer:
the local and controller state are returned unchanged and the thrown
message is the marker-stripped error text.  On the concrete payload
`"\n\n**⚠️ Error:** Rate limit reached"` the turn ends with the
sanitized error "Too many requests. Please wait a moment and try
again." and the assistant message content stays empty — "Rate limit
reached" is never appended to it. -/
theorem C3_masked_error_sanitized :
    maskedErrorRun.err = some "Rate limit reached" ∧
    maskedErrorFinal.error =
      some "Too many requests. Please wait a moment and try again." ∧
    maskedErrorFinal.messages =
      [⟨"u1", .user, "Trigger Error", []⟩, ⟨"a1", .assistant, "", []⟩] ∧
    maskedErrorFinal.isLoading = false ∧
    (∀ (s : String) (now : Nat) (st : StreamLocal) (g : ChatState),
      containsSub s.data "Error:**".data = true →
      processFrame now "0" (.str s) st g = ⟨st, g, some (cleanMaskedError s)⟩) := by
  refine ⟨rfl, rfl, rfl, rfl, ?_⟩
  intro s now st g h
  simp [processFrame, h]

/-- Witness for C3's universally quantified conjunct, at a concrete
marker-bearing payload. -/
theorem C3_witness :
    containsSub "**X Error:** boom".data "Error:**".data = true ∧
    processFrame 7 "0" (.str "**X Error:** boom") (mkStreamLocal "s" "a" 0)
        emptyChatState =
      ⟨mkStreamLocal "s" "a" 0, emptyChatState,
        some (cleanMaskedError "**X Error:** boom")⟩ :=
  ⟨by decide,
    C3_masked_error_sanitized.2.2.2.2 "**X Error:** boom" 7
      (mkStreamLocal "s" "a" 0) emptyChatState (by decide)⟩

/-- C10: masked-error detection is exactly the substring test
`data.includes('Error:**')` — any string payload containing the
substring anywhere aborts the turn with the stripped error, and any
payload without it never takes the error path. -/
theorem C10_masked_error_is_substring_test
    (s : String) (now : Nat) (st : StreamLocal) (g : ChatState) :
    (containsSub s.data "Error:**".data = true →
      processFrame now "0" (.str s) st g = ⟨st, g, some (cleanMaskedError s)⟩) ∧
    (containsSub s.data "Error:**".data = false →
      (processFrame now "0" (.str s) st g).err = none) := by
  constructor
  · intro h
    simp [processFrame, h]
  · intro h
    rcases hfl : flushTokens false now
        { st with tokenBuffer := st.tokenBuffer ++ s } g with ⟨st2, g2⟩
    simp [processFrame, h, hfl]

/-- Witness for C10: the marker mid-answer (a legitimate-looking text)
triggers the error path; a plain payload does not. -/
theorem C10_witness :
    (containsSub "answer Error:** tail".data "Error:**".data = true ∧
      processFrame 3 "0" (.str "answer Error:** tail") (mkStreamLocal "s" "a" 0)
          emptyChatState =
        ⟨mkStreamLocal "s" "a" 0, emptyChatState,
          some (cleanMaskedError "answer Error:** tail")⟩) ∧
    (containsSub "plain Error: text".data "Error:**".data = false ∧
      (processFrame 3 "0" (.str "plain Error: text") (mkStreamLocal "s" "a" 0)
          emptyChatState).err = none) :=
  ⟨⟨by decide,
      (C10_masked_error_is_substring_test "answer Error:** tail" 3
        (mkStreamLocal "s" "a" 0) emptyChatState).1 (by decide)⟩,
    ⟨by decide,
      (C10_masked_error_is_substring_test "plain Error: text" 3
        (mkStreamLocal "s" "a" 0) emptyChatState).2 (by decide)⟩⟩

/-- C8: the §8 two-frame scenario — `0:"Hello"` then a `2` frame with
`retrieval_time` 0.1 and one source of score 0.92 at path `a/b.pdf` —
yields assistant content `"Hello"`, exactly one citation with relevance
92, kind pdf, title `b.pdf` (the last path segment), snippet `"x"`,
and metrics with `retrievalTimeMs = 100`; plus spot checks of the
extension dispatch, the score default and the title fallback. -/
theorem C8_source_mapping_scenario :
    helloRun.2.messages =
        [⟨"u1", .user, "Hi", []⟩, ⟨"a1", .assistant, "Hello", []⟩] ∧
    helloRun.2.chunks = [⟨"chunk-0-1010", "b.pdf", .pdf, "x", 92, "a/b.pdf"⟩] ∧
    helloRun.2.metrics = some ⟨100, 400⟩ ∧
    helloRun.2.error = none ∧
    getFileType "x.docx" = .docx ∧
    getFileType "x.doc" = .docx ∧
    getFileType "x.html" = .web ∧
    relevanceOfScore none = 0 ∧
    titleOfPath "a/" = "Unknown" ∧
    titleOfPath "dir\\file.doc" = "file.doc" :=
  ⟨rfl, rfl, rfl, rfl, rfl, rfl, rfl, rfl, rfl, rfl⟩

/-- C6 (amended): metrics are derived, never reported directly.  A
type-`2` frame carrying a *non-zero* `retrieval_time` of `m/10^e`
seconds records `retrievalTimeMs = round(s × 1000)` and publishes
provisional metrics with `synthesisTimeMs = 0`; on completion the final
metrics satisfy `synthesisTimeMs = max(0, elapsed − retrievalTimeMs)`,
with `retrievalTimeMs` defaulting to 0 when never reported.  The claim
is false as stated for `s = 0`: `if (data.retrieval_time)` is a JS
truthiness test, so a zero report is ignored and no provisional metrics
value is published (see the counterexample). -/
theorem C6_metrics_derived
    (now : Nat) (st : StreamLocal) (g : ChatState) (hb : isBound g st = true) :
    (∀ (fs : List (String × Json)) (m : Int) (e : Nat),
      fs.lookup "reasoning" = none →
      fs.lookup "retrieval_time" = some (.num m e) →
      m ≠ 0 →
      (processFrame now "2" (.obj fs) st g).g.metrics =
          some ⟨jsRoundScaled m e 1000, 0⟩ ∧
      (processFrame now "2" (.obj fs) st g).g.retrievalMs =
          jsRoundScaled m e 1000) ∧
    (trimChars st.buffer = [] →
      (streamFinish now st g).2.metrics =
        some ⟨g.retrievalMs,
          max 0 ((now : Int) - (g.startTime : Int) - g.retrievalMs)⟩) := by
  constructor
  · intro fs m e hrsn hret hm
    have hred := processFrame_type2_obj now fs st g hb
      (fun r hr => by rw [hrsn] at hr; cases hr)
    have hretf : retrievalField (.obj fs) = some (m, e) := by
      simp [retrievalField, getField, hret, hm]
    rw [hred]
    exact processType2Rest_metrics now (.obj fs) st g m e hretf
  · intro hres
    exact streamFinish_metrics now st g hb hres

/-- Witness for C6: a bound stream, a frame reporting 0.1 s, and a
clean completion. -/
theorem C6_witness :
    isBound { emptyChatState with sessionId := some "s" }
        (mkStreamLocal "s" "a" 0) = true ∧
    (processFrame 5 "2" (.obj [("retrieval_time", .num 1 1)])
        (mkStreamLocal "s" "a" 0)
        { emptyChatState with sessionId := some "s" }).g.metrics =
      some ⟨100, 0⟩ ∧
    (streamFinish 400 (mkStreamLocal "s" "a" 0)
        { emptyChatState with sessionId := some "s" }).2.metrics =
      some ⟨0, 400⟩ :=
  ⟨by decide,
    ((C6_metrics_derived 5 (mkStreamLocal "s" "a" 0)
        { emptyChatState with sessionId := some "s" } (by decide)).1
      [("retrieval_time", .num 1 1)] 1 1 rfl rfl (by decide)).1,
    by
      have := (C6_metrics_derived 400 (mkStreamLocal "s" "a" 0)
        { emptyChatState with sessionId := some "s" } (by decide)).2 rfl
      simpa using this⟩

/-- Counterexample to C6 as stated: a frame carrying
`retrieval_time: 0` publishes nothing — metrics remain `null`, not the
claimed provisional value with both components 0. -/
theorem C6_counterexample :
    zeroRetrievalOut.g.metrics = none ∧
    zeroRetrievalOut.g.metrics ≠ some ⟨0, 0⟩ :=
  ⟨rfl, by decide⟩

/-- C7 (amended): when a new citation set arrives in a type-`2` frame
(array payload or `sources` array), a *non-empty* set fully replaces
the stored list with its mapping — never merged; an *empty* incoming
set, however, leaves the stored list unchanged (`if (sources.length >
0)` guards the replacement), contrary to the claim's "including an
empty one" (see the counterexample). -/
theorem C7_citations_replacement
    (now : Nat) (st : StreamLocal) (g : ChatState) (data : Json)
    (cs : List RetrievedChunk) (hb : isBound g st = true)
    (harr : (∃ xs, data = .arr xs) ∨
      (∃ fs, data = .obj fs ∧ fs.lookup "reasoning" = none))
    (hok : mapSources now (extractSources data) = .ok cs) :
    (processFrame now "2" data st g).g.chunks =
      if (extractSources data).isEmpty then g.chunks else cs := by
  rcases harr with ⟨xs, rfl⟩ | ⟨fs, rfl, hrsn⟩
  · rw [processFrame_type2_arr now xs st g hb]
    exact processType2Rest_chunks now (.arr xs) st g cs hok
  · rw [processFrame_type2_obj now fs st g hb
      (fun r hr => by rw [hrsn] at hr; cases hr)]
    exact processType2Rest_chunks now (.obj fs) st g cs hok

/-- Witness for C7: a non-empty set replaces a previously stored
citation list. -/
theorem C7_witness :
    isBound storedChunkState (mkStreamLocal "s1" "a1" 0) = true ∧
    mapSources 9 (extractSources
        (.obj [("sources",
          .arr [.obj [("file_path", .str "n.pdf"), ("text", .str "nn")]])])) =
      .ok [⟨"chunk-0-9", "n.pdf", .pdf, "nn", 0, "n.pdf"⟩] ∧
    (processFrame 9 "2"
        (.obj [("sources",
          .arr [.obj [("file_path", .str "n.pdf"), ("text", .str "nn")]])])
        (mkStreamLocal "s1" "a1" 0) storedChunkState).g.chunks =
      [⟨"chunk-0-9", "n.pdf", .pdf, "nn", 0, "n.pdf"⟩] := by
  refine ⟨by decide, rfl, ?_⟩
  have := C7_citations_replacement 9 (mkStreamLocal "s1" "a1" 0) storedChunkState
    (.obj [("sources",
      .arr [.obj [("file_path", .str "n.pdf"), ("text", .str "nn")]])])
    [⟨"chunk-0-9", "n.pdf", .pdf, "nn", 0, "n.pdf"⟩]
    (by decide) (.inr ⟨_, rfl, rfl⟩) rfl
  simpa using this

/-- Counterexample to C7 as stated: an empty citation set (both as a
bare array payload and as an empty `sources` field) leaves the
previously stored citation list in place instead of replacing it with
the empty mapping. -/
theorem C7_counterexample :
    (processLine 5 "2:\x7b\"sources\":[]\x7d" (mkStreamLocal "s1" "a1" 0)
        storedChunkState).g.chunks = storedChunkState.chunks ∧
    (processLine 5 "2:[]" (mkStreamLocal "s1" "a1" 0)
        storedChunkState).g.chunks = storedChunkState.chunks ∧
    storedChunkState.chunks ≠ ([] : List RetrievedChunk) :=
  ⟨rfl, rfl, by decide⟩

/-! ## Reload (C9) -/

theorem findIdx?_append_all_false (p : Msg → Bool) (l1 l2 : List Msg)
    (h : ∀ x ∈ l1, p x = false) :
    (l1 ++ l2).findIdx? p = (l2.findIdx? p).map (· + l1.length) := by
  induction l1 with
  | nil => simp
  | cons a t ih =>
    have ha : p a = false := h a (List.mem_cons_self a t)
    have ht : ∀ x ∈ t, p x = false := fun x hx => h x (List.mem_cons_of_mem a hx)
    simp [List.findIdx?_cons, ha, ih ht, Option.map_map]

theorem reloadTrunc_locates (pre : List Msg) (uid q : String) (d : List String)
    (ms2 : List Msg) (h : ∀ m ∈ ms2, m.role ≠ .user) :
    reloadTrunc (pre ++ ⟨uid, .user, q, d⟩ :: ms2) = some (pre, q) := by
  have hfalse : ∀ m ∈ ms2.reverse, (decide (m.role = Role.user)) = false := by
    intro m hm
    simpa using h m (List.mem_reverse.mp hm)
  have hrev : (pre ++ (⟨uid, .user, q, d⟩ : Msg) :: ms2).reverse
      = ms2.reverse ++ (⟨uid, .user, q, d⟩ : Msg) :: pre.reverse := by
    simp
  have hfind : ((pre ++ (⟨uid, .user, q, d⟩ : Msg) :: ms2).reverse).findIdx?
      (fun m => decide (m.role = Role.user)) = some ms2.length := by
    rw [hrev, findIdx?_append_all_false _ _ _ hfalse]
    simp
  simp only [reloadTrunc, hfind]
  have hlen : (pre ++ (⟨uid, .user, q, d⟩ : Msg) :: ms2).length - 1 - ms2.length
      = pre.length := by
    simp only [List.length_append, List.length_cons]
    omega
  rw [hlen]
  have htake : (pre ++ (⟨uid, .user, q, d⟩ : Msg) :: ms2).take pre.length = pre :=
    List.take_left pre _
  have hgetD : (pre ++ (⟨uid, .user, q, d⟩ : Msg) :: ms2).getD pre.length
      ⟨"", .user, "", []⟩ = ⟨uid, .user, q, d⟩ := by
    rw [List.getD_append_right pre _ _ _ (Nat.le_refl _)]
    simp
  rw [htake, hgetD]

/-- C9: `reload` locates the most recent user message (skipping any
trailing non-user messages), truncates the log to just before it, and
re-sends its content with the same session id: on `[user "Q",
assistant "A"]` it truncates to `[]`, and the deferred `send` (whose
guard passes) appends exactly one fresh user+assistant pair — not a
duplicate of the original pair.  With no user message, `reload` is a
no-op. -/
theorem C9_reload_truncate_resend :
    (∀ (pre : List Msg) (uid q : String) (d : List String) (ms2 : List Msg),
      (∀ m ∈ ms2, m.role ≠ .user) →
      reloadTrunc (pre ++ ⟨uid, .user, q, d⟩ :: ms2) = some (pre, q)) ∧
    reloadTrunc [⟨"m1", .user, "Q", []⟩, ⟨"m2", .assistant, "A", []⟩] =
      some ([], "Q") ∧
    sendGuard "Q" false = true ∧
    (sendStart "Q" "sid" "u2" "a2" 5
        { emptyChatState with messages := [] }).messages =
      [⟨"u2", .user, "Q", []⟩, ⟨"a2", .assistant, "", []⟩] ∧
    reloadTrunc ([] : List Msg) = none :=
  ⟨reloadTrunc_locates, by decide, by decide, rfl, rfl⟩

/-- Witness for C9's universally quantified conjunct at the scenario
conversation. -/
theorem C9_witness :
    (∀ m ∈ [(⟨"m2", .assistant, "A", []⟩ : Msg)], m.role ≠ Role.user) ∧
    reloadTrunc ([] ++ (⟨"m1", .user, "Q", []⟩ : Msg) ::
        [(⟨"m2", .assistant, "A", []⟩ : Msg)]) = some ([], "Q") :=
  ⟨by decide,
    C9_reload_truncate_resend.1 [] "m1" "Q" []
      [⟨"m2", .assistant, "A", []⟩] (by decide)⟩

/-! ## Throttler lemmas (C5) -/

theorem strApp_eq_empty {a b : String} (h : a ++ b = "") : a = "" ∧ b = "" := by
  have hd := congrArg String.data h
  rw [String.data_append] at hd
  rcases List.append_eq_nil.mp hd with ⟨h1, h2⟩
  constructor
  · cases a
    simp_all
  · cases b
    simp_all

theorem strApp_ne_empty_left {a : String} (b : String) (h : a ≠ "") :
    a ++ b ≠ "" := fun hc => h (strApp_eq_empty hc).1

theorem markerSafe_spec {ds : List Delta} (h : markerSafe ds = true) :
    ∀ run, run <:+: ds →
      redistribute (encodeRun run) = (contentsOf run, reasoningsOf run) := by
  intro run hrun
  rcases List.infix_iff_prefix_suffix.mp hrun with ⟨t, hp, hs⟩
  have ht := List.all_eq_true.mp h t ((List.mem_tails t ds).mpr hs)
  have hr := List.all_eq_true.mp ht run ((List.mem_inits run t).mpr hp)
  exact of_decide_eq_true hr

theorem encodeRun_append (xs ys : List Delta) :
    encodeRun (xs ++ ys) = encodeRun xs ++ encodeRun ys := by
  induction xs with
  | nil => simp [encodeRun, String.empty_append]
  | cons d ds ih => simp [encodeRun, ih, String.append_assoc]

theorem contentsOf_append (xs ys : List Delta) :
    contentsOf (xs ++ ys) = contentsOf xs ++ contentsOf ys := by
  induction xs with
  | nil => simp [contentsOf, String.empty_append]
  | cons d ds ih => cases d <;> simp [contentsOf, ih, String.append_assoc]

theorem reasoningsOf_append (xs ys : List Delta) :
    reasoningsOf (xs ++ ys) = reasoningsOf xs ++ reasoningsOf ys := by
  induction xs with
  | nil => simp [reasoningsOf, String.empty_append]
  | cons d ds ih => cases d <;> simp [reasoningsOf, ih, String.append_assoc]

theorem encodeRun_eq_empty :
    ∀ {run : List Delta}, encodeRun run = "" →
      contentsOf run = "" ∧ reasoningsOf run = "" := by
  intro run
  induction run with
  | nil => intro _; exact ⟨rfl, rfl⟩
  | cons d ds ih =>
    intro h
    rw [encodeRun] at h
    rcases strApp_eq_empty h with ⟨h1, h2⟩
    rcases ih h2 with ⟨hc, hr⟩
    cases d with
    | content s =>
      have hs : s = "" := h1
      simp [contentsOf, reasoningsOf, hc, hr, hs, String.empty_append]
    | reasoning r =>
      exfalso
      have h3 := (strApp_eq_empty h1).1
      have h4 := (strApp_eq_empty h3).1
      exact absurd h4 (by decide)

theorem updateAssistant_ne (aId cu ru : String) {m : Msg} (h : m.id ≠ aId) :
    updateAssistant aId cu ru m = m := by
  simp [updateAssistant, h]

theorem segsOf_ne_empty {R : String} (h : R ≠ "") : segsOf R = [R] := by
  simp [segsOf, h]

theorem updateAssistant_self (aId cu ru C R : String) :
    updateAssistant aId cu ru ⟨aId, .assistant, C, segsOf R⟩ =
      ⟨aId, .assistant, C ++ cu, segsOf (R ++ ru)⟩ := by
  by_cases hru : ru = ""
  · subst hru
    simp [updateAssistant, String.append_empty]
  · by_cases hR : R = ""
    · subst hR
      simp [updateAssistant, segsOf, hru, String.empty_append]
    · have hRru : R ++ ru ≠ "" := strApp_ne_empty_left ru hR
      simp [updateAssistant, segsOf_ne_empty hR, segsOf_ne_empty hRru, hru, hR]

theorem map_updateAssistant_id (aId cu ru : String) :
    ∀ (l : List Msg), (∀ m ∈ l, m.id ≠ aId) →
      l.map (updateAssistant aId cu ru) = l := by
  intro l
  induction l with
  | nil => intro _; rfl
  | cons m t ih =>
    intro h
    rw [List.map_cons, updateAssistant_ne aId cu ru (h m (List.mem_cons_self m t)),
      ih (fun x hx => h x (List.mem_cons_of_mem m hx))]

theorem mkStore_map (pre post : List Msg) (aId cu ru C R : String)
    (hpre : ∀ m ∈ pre, m.id ≠ aId) (hpost : ∀ m ∈ post, m.id ≠ aId) :
    (mkStore pre post aId C (segsOf R)).map (updateAssistant aId cu ru) =
      mkStore pre post aId (C ++ cu) (segsOf (R ++ ru)) := by
  simp only [mkStore, List.map_append, List.map_cons]
  rw [updateAssistant_self, map_updateAssistant_id aId cu ru pre hpre,
    map_updateAssistant_id aId cu ru post hpost]

theorem stringify_str (s : String) : stringify (.str s) = quoteJS s := rfl

theorem applyDelta_content (t : Nat) (s : String) (st : StreamLocal)
    (g : ChatState) (h : containsSub s.data "Error:**".data = false) :
    applyDelta (t, .content s) (st, g) =
      flushTokens false t { st with tokenBuffer := st.tokenBuffer ++ s } g := by
  rcases hfl : flushTokens false t { st with tokenBuffer := st.tokenBuffer ++ s } g
    with ⟨st2, g2⟩
  simp [applyDelta, processFrame, h, hfl]

theorem applyDelta_reasoning (t : Nat) (r : String) (st : StreamLocal)
    (g : ChatState) (hb : isBound g st = true) (hr : r ≠ "") :
    applyDelta (t, .reasoning r) (st, g) =
      flushTokens false t
        { st with tokenBuffer :=
            st.tokenBuffer ++ (reasoningMark ++ quoteJS r ++ endMark) } g := by
  rcases hfl : flushTokens false t
      { st with tokenBuffer :=
          st.tokenBuffer ++ (reasoningMark ++ quoteJS r ++ endMark) } g
    with ⟨st2, g2⟩
  have hl : st.tokenBuffer ++ reasoningMark ++ stringify (.str r) ++ endMark =
      st.tokenBuffer ++ (reasoningMark ++ quoteJS r ++ endMark) := by
    simp [stringify_str, String.append_assoc]
  simp only [applyDelta, processFrame, hb, Bool.and_true, getField, jsTruthy]
  simp [hr, hl, hfl, List.lookup]

/-- One flush step preserves the throttler invariant: the token buffer
always encodes a contiguous run of not-yet-committed deltas and the
assistant message holds exactly the committed ones. -/
theorem flush_preserves_inv
    (full : List Delta)
    (hsafe : ∀ run, run <:+: full →
      redistribute (encodeRun run) = (contentsOf run, reasoningsOf run))
    (pre post : List Msg) (aId sid : String)
    (hpre : ∀ m ∈ pre, m.id ≠ aId) (hpost : ∀ m ∈ post, m.id ≠ aId)
    (force : Bool) (t : Nat) (st : StreamLocal) (g : ChatState)
    (done run tail : List Delta) (hdecomp : full = done ++ (run ++ tail))
    (hbuf : st.tokenBuffer = encodeRun run)
    (haid : st.assistantId = aId) (hbd : st.bound = sid)
    (hsid : g.sessionId = some sid)
    (hmsg : g.messages =
      mkStore pre post aId (contentsOf done) (segsOf (reasoningsOf done))) :
    ∃ done' run',
      done' ++ run' = done ++ run ∧
      (flushTokens force t st g).1.tokenBuffer = encodeRun run' ∧
      (flushTokens force t st g).1.assistantId = aId ∧
      (flushTokens force t st g).1.bound = sid ∧
      (flushTokens force t st g).2.sessionId = some sid ∧
      (flushTokens force t st g).2.messages =
        mkStore pre post aId (contentsOf done') (segsOf (reasoningsOf done')) ∧
      (force = true → encodeRun run' = "") := by
  have hinfix : run <:+: full :=
    ⟨done, tail, by rw [hdecomp, List.append_assoc]⟩
  have hbound : isBound g { st with tokenBuffer := "", lastUpdate := t } = true := by
    simp [isBound, hsid, hbd]
  simp only [flushTokens]
  split
  · by_cases hch : st.tokenBuffer = ""
    · have hfalse : (decide (st.tokenBuffer ≠ "") && isBound g
          { st with tokenBuffer := "", lastUpdate := t }) = false := by
        simp [hch]
      rw [hfalse, if_neg (by simp)]
      exact ⟨done, run, rfl, (hbuf.symm.trans hch).symm, haid, hbd, hsid, hmsg,
        fun _ => hbuf.symm.trans hch⟩
    · have hred := hsafe run hinfix
      rw [← hbuf] at hred
      have hne : (decide (st.tokenBuffer ≠ "") && isBound g
          { st with tokenBuffer := "", lastUpdate := t }) = true := by
        simp [hch, hbound]
      rw [hne, if_pos rfl, hred]
      refine ⟨done ++ run, [], by simp, rfl, haid, hbd, hsid, ?_, fun _ => rfl⟩
      show (g.messages.map (updateAssistant st.assistantId
          (contentsOf run) (reasoningsOf run))) =
        mkStore pre post aId (contentsOf (done ++ run))
          (segsOf (reasoningsOf (done ++ run)))
      rw [hmsg, haid, mkStore_map pre post aId _ _ _ _ hpre hpost,
        contentsOf_append, reasoningsOf_append]
  · rename_i hcond
    refine ⟨done, run, rfl, hbuf, haid, hbd, hsid, hmsg, ?_⟩
    intro hforce
    rw [hforce] at hcond
    simp at hcond

/-- The throttler invariant holds along any delta sequence: after
processing, the token buffer encodes a contiguous trailing run of the
deltas and the assistant message holds exactly the earlier ones. -/
theorem runDeltas_inv
    (full : List Delta)
    (hsafe : ∀ run, run <:+: full →
      redistribute (encodeRun run) = (contentsOf run, reasoningsOf run))
    (pre post : List Msg) (aId sid : String)
    (hpre : ∀ m ∈ pre, m.id ≠ aId) (hpost : ∀ m ∈ post, m.id ≠ aId) :
    ∀ (rest : List (Nat × Delta)) (done run : List Delta)
      (st : StreamLocal) (g : ChatState),
      full = done ++ (run ++ rest.map Prod.snd) →
      (∀ nd ∈ rest, deltaOk nd.2 = true) →
      st.tokenBuffer = encodeRun run →
      st.assistantId = aId → st.bound = sid → g.sessionId = some sid →
      g.messages = mkStore pre post aId (contentsOf done)
        (segsOf (reasoningsOf done)) →
      ∃ done' run',
        done' ++ run' = done ++ (run ++ rest.map Prod.snd) ∧
        (runDeltas rest (st, g)).1.tokenBuffer = encodeRun run' ∧
        (runDeltas rest (st, g)).1.assistantId = aId ∧
        (runDeltas rest (st, g)).1.bound = sid ∧
        (runDeltas rest (st, g)).2.sessionId = some sid ∧
        (runDeltas rest (st, g)).2.messages =
          mkStore pre post aId (contentsOf done') (segsOf (reasoningsOf done')) := by
  intro rest
  induction rest with
  | nil =>
    intro done run st g _ _ hbuf haid hbd hsid hmsg
    exact ⟨done, run, by simp, hbuf, haid, hbd, hsid, hmsg⟩
  | cons nd rest' ih =>
    intro done run st g hdec hok hbuf haid hbd hsid hmsg
    obtain ⟨t, d⟩ := nd
    have hokd : deltaOk d = true := hok (t, d) (List.mem_cons_self _ _)
    have hok' : ∀ nd ∈ rest', deltaOk nd.2 = true :=
      fun nd h => hok nd (List.mem_cons_of_mem _ h)
    have hbound : isBound g st = true := by simp [isBound, hsid, hbd]
    have happly : applyDelta (t, d) (st, g) =
        flushTokens false t
          { st with tokenBuffer := st.tokenBuffer ++ encodeDelta d } g := by
      cases d with
      | content s =>
        have hc : containsSub s.data "Error:**".data = false := by
          simpa [deltaOk] using hokd
        exact applyDelta_content t s st g hc
      | reasoning r =>
        have hr : r ≠ "" := by simpa [deltaOk] using hokd
        exact applyDelta_reasoning t r st g hbound hr
    have hbuf' : ({ st with tokenBuffer := st.tokenBuffer ++ encodeDelta d } :
        StreamLocal).tokenBuffer = encodeRun (run ++ [d]) := by
      simp [hbuf, encodeRun_append, encodeRun, String.append_empty]
    have hdec' : full = done ++ ((run ++ [d]) ++ rest'.map Prod.snd) := by
      rw [hdec]
      simp [List.append_assoc]
    obtain ⟨done₁, run₁, hdr₁, hbuf₁, haid₁, hbd₁, hsid₁, hmsg₁, _⟩ :=
      flush_preserves_inv full hsafe pre post aId sid hpre hpost false t
        { st with tokenBuffer := st.tokenBuffer ++ encodeDelta d } g
        done (run ++ [d]) (rest'.map Prod.snd) hdec' hbuf' haid hbd hsid hmsg
    rcases hfl : flushTokens false t
        { st with tokenBuffer := st.tokenBuffer ++ encodeDelta d } g with ⟨st₁, g₁⟩
    rw [hfl] at hbuf₁ haid₁ hbd₁ hsid₁ hmsg₁
    have hdec₁ : full = done₁ ++ (run₁ ++ rest'.map Prod.snd) := by
      rw [hdec', ← List.append_assoc, ← hdr₁, List.append_assoc]
    obtain ⟨done₂, run₂, hdr₂, h2, h3, h4, h5, h6⟩ :=
      ih done₁ run₁ st₁ g₁ hdec₁ hok' hbuf₁ haid₁ hbd₁ hsid₁ hmsg₁
    have hrun : runDeltas ((t, d) :: rest') (st, g) = runDeltas rest' (st₁, g₁) := by
      simp only [runDeltas, List.foldl_cons]
      rw [happly, hfl]
    have hdr₂' : done₂ ++ run₂ =
        done ++ (run ++ ((t, d) :: rest').map Prod.snd) := by
      rw [hdr₂, ← List.append_assoc, hdr₁]
      simp [List.append_assoc]
    exact ⟨done₂, run₂, hdr₂', by rw [hrun]; exact h2, by rw [hrun]; exact h3,
      by rw [hrun]; exact h4, by rw [hrun]; exact h5, by rw [hrun]; exact h6⟩

/-- C5 (amended): the update throttler never drops buffered text.  For
every timestamped sequence of content and reasoning deltas delivered by
a still-bound stream — provided no content delta is a masked-error
frame, reasoning deltas are non-empty, and the deltas are
marker-interference free (`markerSafe`: no contiguous run encodes to a
buffer the marker split mis-parses; violated e.g. by a content delta
containing `__REASONING__`, see the counterexample) — after the forced
flush at stream completion the assistant message's content equals the
concatenation of all content deltas and its accumulated reasoning
equals the concatenation of all reasoning deltas, regardless of the
flush timing. -/
theorem C5_throttler_never_drops
    (ds : List (Nat × Delta)) (tEnd : Nat) (pre post : List Msg)
    (aId sid : String) (st0 : StreamLocal) (g0 : ChatState)
    (hpre : ∀ m ∈ pre, m.id ≠ aId) (hpost : ∀ m ∈ post, m.id ≠ aId)
    (hok : ∀ nd ∈ ds, deltaOk nd.2 = true)
    (hsafe : markerSafe (ds.map Prod.snd) = true)
    (htb : st0.tokenBuffer = "") (haid : st0.assistantId = aId)
    (hbd : st0.bound = sid) (hsid : g0.sessionId = some sid)
    (hmsg : g0.messages = mkStore pre post aId "" []) :
    (flushTokens true tEnd (runDeltas ds (st0, g0)).1
        (runDeltas ds (st0, g0)).2).2.messages =
      mkStore pre post aId (contentsOf (ds.map Prod.snd))
        (segsOf (reasoningsOf (ds.map Prod.snd))) := by
  have hsafe' := markerSafe_spec hsafe
  obtain ⟨done', run', hdr, hbuf', haid', hbd', hsid', hmsg'⟩ :=
    runDeltas_inv (ds.map Prod.snd) hsafe' pre post aId sid hpre hpost ds
      [] [] st0 g0 (by simp) hok htb haid hbd hsid (by rw [hmsg]; rfl)
  rcases hrun : runDeltas ds (st0, g0) with ⟨stR, gR⟩
  rw [hrun] at hbuf' haid' hbd' hsid' hmsg'
  have hdrF : done' ++ run' = ds.map Prod.snd := by simpa using hdr
  have hdecF : ds.map Prod.snd = done' ++ (run' ++ []) := by
    rw [List.append_nil]
    exact hdrF.symm
  obtain ⟨done'', run'', hdr2, _, _, _, _, hmsg2, hforce⟩ :=
    flush_preserves_inv (ds.map Prod.snd) hsafe' pre post aId sid hpre hpost
      true tEnd stR gR done' run' [] hdecF hbuf' haid' hbd' hsid' hmsg'
  rcases encodeRun_eq_empty (hforce rfl) with ⟨hc2, hr2⟩
  have hfull : ds.map Prod.snd = done'' ++ run'' := by
    rw [hdr2, hdrF]
  have hcontents : contentsOf (ds.map Prod.snd) = contentsOf done'' := by
    rw [hfull, contentsOf_append, hc2, String.append_empty]
  have hreason : reasoningsOf (ds.map Prod.snd) = reasoningsOf done'' := by
    rw [hfull, reasoningsOf_append, hr2, String.append_empty]
  rw [hcontents, hreason]
  exact hmsg2

/-- Witness for C5: three deltas — content, reasoning, content — with a
flush-triggering timestamp gap. -/
theorem C5_witness :
    (∀ nd ∈ [((1000 : Nat), Delta.content "Hel"), (1001, Delta.reasoning "think"),
        (1060, Delta.content "lo")], deltaOk nd.2 = true) ∧
    markerSafe ([((1000 : Nat), Delta.content "Hel"), (1001, Delta.reasoning "think"),
        (1060, Delta.content "lo")].map Prod.snd) = true ∧
    (flushTokens true 1100
        (runDeltas [(1000, .content "Hel"), (1001, .reasoning "think"),
          (1060, .content "lo")]
          (mkStreamLocal "s" "a1" 999,
            { emptyChatState with
              sessionId := some "s"
              messages := mkStore [⟨"u1", .user, "Q", []⟩] [] "a1" "" [] })).1
        (runDeltas [(1000, .content "Hel"), (1001, .reasoning "think"),
          (1060, .content "lo")]
          (mkStreamLocal "s" "a1" 999,
            { emptyChatState with
              sessionId := some "s"
              messages := mkStore [⟨"u1", .user, "Q", []⟩] [] "a1" "" [] })).2).2.messages =
      mkStore [⟨"u1", .user, "Q", []⟩] [] "a1" "Hello" ["think"] :=
  ⟨by decide, by decide,
    C5_throttler_never_drops
      [(1000, .content "Hel"), (1001, .reasoning "think"), (1060, .content "lo")]
      1100 [⟨"u1", .user, "Q", []⟩] [] "a1" "s" (mkStreamLocal "s" "a1" 999)
      { emptyChatState with
        sessionId := some "s"
        messages := mkStore [⟨"u1", .user, "Q", []⟩] [] "a1" "" [] }
      (by decide) (by decide) (by decide) (by decide) rfl rfl rfl rfl rfl⟩

/-- Counterexample to C5 as stated: a single content delta that
contains the interleaving marker `__REASONING__` verbatim.  The flush
mis-splits the buffer, drops the markerless remainder (no `__END__`),
and commits only `"a"` — the final content differs from the
concatenation of the content deltas. -/
theorem C5_counterexample :
    markerDeltaRun.2.messages.map Msg.content = ["Q", "a"] ∧
    contentsOf [.content "a__REASONING__b"] = "a__REASONING__b" ∧
    ("a" : String) ≠ "a__REASONING__b" :=
  ⟨rfl, by simp [contentsOf], by decide⟩

end Spec2Proof
